import Mathlib

/-!
# Job-board backend: store, request handlers and notification fan-out

A shallow embedding of `src/server.js`.  The four JSON files are the four lists of a
`Store`; a request handler is a function from the store (and the request) to the
response and the store it leaves behind.  `readJSON`/`writeJSON` are taken to be a
faithful whole-collection read and replace.  With the values modelled here one `catch`
branch (status 500) can be entered: that of the invite handler, when `toLowerCase` is
called on an email that is not a string.

Conventions used for JavaScript values:

* an email is a `JsValue`, any value a JSON body can carry: the sign-up and the
  application form store whatever truthy value they are sent, `===` and `toLowerCase`
  then behave according to its kind;
* any other body or query field is `Option String`: `none` is an absent (`undefined`)
  field, and a field is truthy when it is present and not `""`;
* a route parameter is given after `parseInt` / `parseFloat`, as `Option Int` /
  `Option ℚ`, `none` being `NaN`, which `===` equates with nothing; likewise the `jobId`
  of an application form is given by the two things the handler asks of it, its
  truthiness and its `parseInt`;
* every value drawn from the clock or from `Math.random` (`Date.now()`,
  `new Date().toISOString()`, `Date.now() + Math.random()`) is an argument of the
  handler that draws it;
* `toLowerCase`, the text a template literal gives a value that is not a string, and
  the message of a `TypeError` are the fields of `Builtins`, so that nothing proved
  depends on them.
-/

namespace HustleHub

/-! ## Data model -/

/-- A value of a JSON body after `JSON.parse`.  `infinite` is what a number too large
for a double parses to.  An array or an object is given by its JSON text: it is a fresh
object at every parse. -/
inductive JsValue where
  | null
  | bool (b : Bool)
  | number (q : ℚ)
  | infinite (negative : Bool)
  | string (s : String)
  | object (json : String)
  deriving DecidableEq, Repr

/-- A record of `users.json`. -/
structure User where
  id : Int
  name : String
  email : JsValue
  password : String
  role : String
  deriving DecidableEq, Repr

/-- A record of `jobs.json`. -/
structure Job where
  id : Int
  title : String
  company : String
  location : String
  type : String
  salary : String
  description : String
  requirements : String
  postedDate : String
  deriving DecidableEq, Repr

/-- A record of `applications.json`.  `jobId` is `parseInt` of the submitted field; a
`NaN` there is written to the file as `null`, here `none`. -/
structure Application where
  id : Int
  jobId : Option Int
  name : String
  email : JsValue
  phone : String
  location : String
  qualification : String
  resumeFileName : String
  interviewPreference : String
  message : String
  inviteSent : Bool
  inviteSentDate : Option String
  appliedDate : String
  deriving DecidableEq, Repr

/-- A record of `notifications.json`.  `applicationId` is present only on invitations;
`type` is absent when the value it was built from was `undefined`. -/
structure Notification where
  id : ℚ
  userId : Int
  jobId : Int
  applicationId : Option Int
  title : String
  message : String
  jobTitle : String
  company : String
  location : String
  type : Option String
  read : Bool
  createdAt : String
  deriving DecidableEq, Repr

/-- The four collections. -/
structure Store where
  users : List User
  jobs : List Job
  applications : List Application
  notifications : List Notification
  deriving DecidableEq, Repr

/-- The state at first start: every file holds `[]`. -/
def Store.empty : Store :=
  { users := [], jobs := [], applications := [], notifications := [] }

/-! ## Requests and responses -/

/-- The library behaviour that is left open: `toLowerCase` on a string, the text a
template literal splices for a value that is not a string, and the message of the
`TypeError` raised when `toLowerCase` is called on the value of the expression `expr`. -/
structure Builtins where
  toLowerCase : String → String
  stringOf : JsValue → String
  typeError : (expr : String) → JsValue → String

/-- The `jobId` field of an application form, as the handler observes it: `truthy` is
the outcome of the test `!jobId` negated, `parsed` is `parseInt(jobId)`. -/
structure JobIdField where
  truthy : Bool
  parsed : Option Int
  deriving DecidableEq, Repr

/-- Body of `POST /users`. -/
structure UserReq where
  name : Option String
  email : Option JsValue
  password : Option String
  role : Option String
  deriving DecidableEq, Repr

/-- Body of `POST /login`. -/
structure LoginReq where
  email : Option JsValue
  password : Option String
  deriving DecidableEq, Repr

/-- Body of `POST /jobs`. -/
structure JobReq where
  title : Option String
  company : Option String
  location : Option String
  type : Option String
  salary : Option String
  description : Option String
  requirements : Option String
  deriving DecidableEq, Repr

/-- Query of `GET /jobs/search`. -/
structure SearchReq where
  title : Option String
  location : Option String
  type : Option String
  deriving DecidableEq, Repr

/-- Body of `POST /applications`. -/
structure ApplicationReq where
  jobId : JobIdField
  name : Option String
  email : Option JsValue
  phone : Option String
  location : Option String
  qualification : Option String
  resumeFileName : Option String
  interviewPreference : Option String
  message : Option String
  deriving DecidableEq, Repr

/-- The identifier and timestamp drawn for one notification:
`Date.now() + Math.random()` and `new Date().toISOString()`. -/
structure Stamp where
  id : ℚ
  createdAt : String
  deriving DecidableEq, Repr

/-- A JSON object response `{ success, message, ... }` with its HTTP status. -/
structure Reply where
  status : Nat
  success : Bool
  message : String
  warning : Option String := none
  user : Option User := none
  job : Option Job := none
  application : Option Application := none
  notificationCreated : Option Bool := none
  userNotified : Option String := none
  deriving DecidableEq, Repr

/-- What a handler sends back. -/
inductive Response where
  | reply (r : Reply)
  | users (l : List User)
  | jobs (l : List Job)
  | applications (l : List Application)
  | notifications (l : List Notification)
  | count (n : Nat)
  deriving DecidableEq, Repr

/-! ## JavaScript helpers -/

/-- Truthiness of a field: present and not the empty string. -/
def truthy : Option String → Bool
  | some v => decide (v ≠ "")
  | none => false

/-- Truthiness of a field that may hold any JSON value: absent, `null`, `false`, `0` and
`""` are falsy, everything else is truthy. -/
def truthyJs : Option JsValue → Bool
  | none => false
  | some .null => false
  | some (.bool b) => b
  | some (.number q) => decide (q ≠ 0)
  | some (.infinite _) => true
  | some (.string v) => decide (v ≠ "")
  | some (.object _) => true

/-- The comparison `a === b` of a stored value with a value of the request: by value for
`null`, booleans, numbers and strings; an array or an object is identical to no other. -/
def strictEq : JsValue → JsValue → Bool
  | .null, .null => true
  | .bool x, .bool y => decide (x = y)
  | .number x, .number y => decide (x = y)
  | .infinite x, .infinite y => decide (x = y)
  | .string x, .string y => decide (x = y)
  | _, _ => false

/-- What a value is once written by `JSON.stringify` and read back: an infinite number
is written as `null`, anything else comes back as it was. -/
def persist : JsValue → JsValue
  | .infinite _ => .null
  | v => v

/-- The call `v.toLowerCase()`, where `expr` is the text of the expression whose value
is `v`: the folded string, or the message of the `TypeError` thrown for a value that is
not a string. -/
def toLowerCase (B : Builtins) (expr : String) : JsValue → Except String String
  | .string v => .ok (B.toLowerCase v)
  | v => .error (B.typeError expr v)

/-- The text a template literal splices for a value. -/
def templateText (B : Builtins) : JsValue → String
  | .string v => v
  | v => B.stringOf v

/-- The expression `v || d`. -/
def orDefault (v : Option String) (d : String) : String :=
  if truthy v then v.getD d else d

/-- The method `s.includes(t)`: `t` occurs in `s` as a contiguous run. -/
def includes (s t : String) : Bool :=
  s.data.tails.any (fun l => t.data.isPrefixOf l)

/-- Assignment through the reference returned by `Array.prototype.find`: the first
element satisfying `p` is replaced by `f` of it, the array is otherwise untouched. -/
def updateFirst {α : Type} (p : α → Bool) (f : α → α) : List α → List α
  | [] => []
  | x :: xs => if p x then f x :: xs else x :: updateFirst p f xs

/-! ## Users -/

/-- Handler of `GET /users`. -/
def getUsers (s : Store) : Response × Store :=
  (.users s.users, s)

/-- Handler of `POST /users`; `now` is `Date.now()`. -/
def registerUser (s : Store) (now : Int) (req : UserReq) : Response × Store :=
  if !truthy req.name || !truthyJs req.email || !truthy req.password || !truthy req.role then
    (.reply { status := 400, success := false, message := "All fields are required" }, s)
  else if s.users.any (fun u => strictEq u.email (req.email.getD .null)) then
    (.reply { status := 400, success := false, message := "Email already registered" }, s)
  else
    let newUser : User :=
      { id := now, name := req.name.getD "", email := persist (req.email.getD .null),
        password := req.password.getD "", role := req.role.getD "" }
    (.reply { status := 200, success := true, message := "User created!" },
      { s with users := s.users ++ [newUser] })

/-- Handler of `POST /login`.  A stored email is identical to no absent field. -/
def login (s : Store) (req : LoginReq) : Response × Store :=
  match s.users.find?
      (fun u => (req.email.map (strictEq u.email)).getD false &&
        decide (some u.password = req.password)) with
  | none =>
    (.reply { status := 400, success := false, message := "Invalid email or password" }, s)
  | some user =>
    (.reply { status := 200, success := true, message := "Login successful", user := some user },
      s)

/-! ## Jobs -/

/-- The notification pushed for one job seeker by `POST /jobs`. -/
def jobNotification (jobId : Int) (title company location : String) (type : Option String)
    (st : Stamp) (user : User) : Notification :=
  { id := st.id,
    userId := user.id,
    jobId := jobId,
    applicationId := none,
    title := "🎉 New Job Posted!",
    message := title ++ " at " ++ company ++ " in " ++ location,
    jobTitle := title,
    company := company,
    location := location,
    type := type,
    read := false,
    createdAt := st.createdAt }

/-- The loop `users.forEach(user => { if (user.role === 'jobseeker') ... push ... })`,
run from directory position `i` on the remaining users, pushing onto `notifications`;
`stamp i` is what the clock gives while the user at position `i` is handled. -/
def notifyJobseekers (jobId : Int) (title company location : String) (type : Option String)
    (stamp : Nat → Stamp) : Nat → List User → List Notification → List Notification
  | _, [], notifications => notifications
  | i, user :: rest, notifications =>
    if user.role = "jobseeker" then
      notifyJobseekers jobId title company location type stamp (i + 1) rest
        (notifications ++ [jobNotification jobId title company location type (stamp i) user])
    else
      notifyJobseekers jobId title company location type stamp (i + 1) rest notifications

/-- Handler of `POST /jobs`; `now` is the `Date.now()` of the job id, `postedDate` the
timestamp of the job. -/
def postJob (s : Store) (now : Int) (postedDate : String) (stamp : Nat → Stamp)
    (req : JobReq) : Response × Store :=
  if !truthy req.title || !truthy req.company || !truthy req.location then
    (.reply { status := 400, success := false, message := "Missing required fields" }, s)
  else
    let title := req.title.getD ""
    let company := req.company.getD ""
    let location := req.location.getD ""
    let newJob : Job :=
      { id := now,
        title := title,
        company := company,
        location := location,
        type := orDefault req.type "Full Time",
        salary := orDefault req.salary "Not specified",
        description := orDefault req.description "",
        requirements := orDefault req.requirements "",
        postedDate := postedDate }
    (.reply { status := 200, success := true, message := "Job added successfully!",
              job := some newJob },
      { s with
        jobs := s.jobs ++ [newJob],
        notifications :=
          notifyJobseekers newJob.id title company location req.type stamp 0 s.users
            s.notifications })

/-- Handler of `GET /jobs`. -/
def getJobs (s : Store) : Response × Store :=
  (.jobs s.jobs, s)

/-- The three successive filters of `GET /jobs/search`. -/
def searchFilter (B : Builtins) (q : SearchReq) (jobs : List Job) : List Job :=
  let byTitle :=
    if truthy q.title then
      jobs.filter (fun job =>
        includes (B.toLowerCase job.title) (B.toLowerCase (q.title.getD "")) ||
        includes (B.toLowerCase job.company) (B.toLowerCase (q.title.getD "")))
    else jobs
  let byLocation :=
    if truthy q.location then
      byTitle.filter (fun job =>
        includes (B.toLowerCase job.location) (B.toLowerCase (q.location.getD "")))
    else byTitle
  if truthy q.type then byLocation.filter (fun job => decide (some job.type = q.type))
  else byLocation

/-- Handler of `GET /jobs/search`. -/
def searchJobs (B : Builtins) (s : Store) (q : SearchReq) : Response × Store :=
  (.jobs (searchFilter B q s.jobs), s)

/-- Handler of `DELETE /jobs/:id`; `jobId` is `parseInt(req.params.id)`. -/
def deleteJob (s : Store) (jobId : Option Int) : Response × Store :=
  let filteredJobs := s.jobs.filter (fun job => decide (some job.id ≠ jobId))
  if s.jobs.length = filteredJobs.length then
    (.reply { status := 404, success := false, message := "Job not found" }, s)
  else
    (.reply { status := 200, success := true, message := "Job deleted successfully" },
      { s with jobs := filteredJobs })

/-! ## Applications -/

/-- Handler of `POST /applications`; `now` is `Date.now()`, `appliedDate` the
timestamp. -/
def submitApplication (s : Store) (now : Int) (appliedDate : String)
    (req : ApplicationReq) : Response × Store :=
  if !req.jobId.truthy || !truthy req.name || !truthyJs req.email || !truthy req.phone ||
      !truthy req.location || !truthy req.qualification then
    (.reply { status := 400, success := false, message := "Missing required fields" }, s)
  else
    let newApplication : Application :=
      { id := now,
        jobId := req.jobId.parsed,
        name := req.name.getD "",
        email := persist (req.email.getD .null),
        phone := req.phone.getD "",
        location := req.location.getD "",
        qualification := req.qualification.getD "",
        resumeFileName := orDefault req.resumeFileName "Not provided",
        interviewPreference := orDefault req.interviewPreference "Not specified",
        message := orDefault req.message "",
        inviteSent := false,
        inviteSentDate := none,
        appliedDate := appliedDate }
    (.reply { status := 200, success := true, message := "Application submitted successfully!",
              application := some newApplication },
      { s with applications := s.applications ++ [newApplication] })

/-- Handler of `GET /applications/job/:jobId`; `jobId` is `parseInt(req.params.jobId)`.
A stored `null` equals no number. -/
def getApplicationsForJob (s : Store) (jobId : Option Int) : Response × Store :=
  (.applications
      (s.applications.filter (fun app => app.jobId.isSome && decide (app.jobId = jobId))), s)

/-- Handler of `GET /applications`. -/
def getApplications (s : Store) : Response × Store :=
  (.applications s.applications, s)

/-- The two assignments `application.inviteSent = true; application.inviteSentDate = ...`. -/
def markInvited (inviteSentDate : String) (application : Application) : Application :=
  { application with inviteSent := true, inviteSentDate := some inviteSentDate }

/-- The notification built by the invite workflow. -/
def inviteNotification (st : Stamp) (user : User) (job : Job) (application : Application) :
    Notification :=
  { id := st.id,
    userId := user.id,
    jobId := job.id,
    applicationId := some application.id,
    title := "🎊 Interview Invitation!",
    message := "You've been invited for an interview for " ++ job.title ++ " at " ++
      job.company ++ ". Interview mode: " ++ application.interviewPreference,
    jobTitle := job.title,
    company := job.company,
    location := job.location,
    type := some "Interview Invitation",
    read := false,
    createdAt := st.createdAt }

/-- The search `users.find(u => u.email.toLowerCase() === email.toLowerCase())` of the
invite handler, `email` being `application.email`: the first user for whom the test
holds, if any, or the message of the `TypeError` thrown by the first call of
`toLowerCase` on a value that is not a string.  For each user the left operand is
evaluated first. -/
def findUserByEmail (B : Builtins) (email : JsValue) : List User → Except String (Option User)
  | [] => .ok none
  | u :: rest =>
    match toLowerCase B "u.email" u.email with
    | .error message => .error message
    | .ok userEmail =>
      match toLowerCase B "application.email" email with
      | .error message => .error message
      | .ok applicationEmail =>
        if userEmail = applicationEmail then .ok (some u)
        else findUserByEmail B email rest

/-- Handler of `PUT /applications/:applicationId/invite`; `applicationId` is
`parseInt(req.params.applicationId)`, `st` the stamp of the notification and
`inviteSentDate` the timestamp written on the application. -/
def invite (B : Builtins) (s : Store) (applicationId : Option Int) (st : Stamp)
    (inviteSentDate : String) : Response × Store :=
  match s.applications.find? (fun app => decide (some app.id = applicationId)) with
  | none =>
    (.reply { status := 404, success := false, message := "Application not found" }, s)
  | some application =>
    match s.jobs.find? (fun j => decide (some j.id = application.jobId)) with
    | none => (.reply { status := 404, success := false, message := "Job not found" }, s)
    | some job =>
      let applications :=
        updateFirst (fun app => decide (some app.id = applicationId))
          (markInvited inviteSentDate) s.applications
      match findUserByEmail B application.email s.users with
      | .error message =>
        (.reply { status := 500, success := false,
                  message := "Error sending invitation: " ++ message }, s)
      | .ok none =>
        (.reply { status := 200, success := true,
                  message :=
                    "Invitation marked as sent, but user account not found for notification",
                  warning :=
                    some ("No user registered with email " ++
                      templateText B application.email) },
          { s with applications := applications })
      | .ok (some user) =>
        (.reply { status := 200, success := true, message := "Invitation sent successfully",
                  notificationCreated := some true, userNotified := some user.name },
          { s with
            notifications := s.notifications ++ [inviteNotification st user job application],
            applications := applications })

/-! ## Notifications -/

/-- Handler of `GET /notifications/:userId`. -/
def getNotifications (s : Store) (userId : Option Int) : Response × Store :=
  (.notifications (s.notifications.filter (fun n => decide (some n.userId = userId))), s)

/-- The number sent by `GET /notifications/:userId/unread-count`. -/
def unreadCount (notifications : List Notification) (userId : Option Int) : Nat :=
  (notifications.filter (fun n => decide (some n.userId = userId) && !n.read)).length

/-- Handler of `GET /notifications/:userId/unread-count`. -/
def getUnreadCount (s : Store) (userId : Option Int) : Response × Store :=
  (.count (unreadCount s.notifications userId), s)

/-- The assignment `n.read = true`. -/
def setRead (n : Notification) : Notification :=
  { n with read := true }

/-- Handler of `PUT /notifications/:notificationId/read`; `notificationId` is
`parseFloat(req.params.notificationId)`. -/
def markRead (s : Store) (notificationId : Option ℚ) : Response × Store :=
  match s.notifications.find? (fun n => decide (some n.id = notificationId)) with
  | some _ =>
    (.reply { status := 200, success := true, message := "Notification marked as read" },
      { s with
        notifications :=
          updateFirst (fun n => decide (some n.id = notificationId)) setRead s.notifications })
  | none =>
    (.reply { status := 404, success := false, message := "Notification not found" }, s)

/-- Handler of `PUT /notifications/:userId/read-all`. -/
def markAllRead (s : Store) (userId : Option Int) : Response × Store :=
  (.reply { status := 200, success := true, message := "All notifications marked as read" },
    { s with
      notifications :=
        s.notifications.map (fun n => if some n.userId = userId then setRead n else n) })

/-- Handler of `DELETE /notifications/:userId`. -/
def clearNotifications (s : Store) (userId : Option Int) : Response × Store :=
  (.reply { status := 200, success := true, message := "Notifications cleared" },
    { s with
      notifications := s.notifications.filter (fun n => decide (some n.userId ≠ userId)) })

/-! ## The system as a transition system -/

/-- One request, with the values its handler draws from the clock. -/
inductive Op where
  | getUsers
  | register (now : Int) (req : UserReq)
  | login (req : LoginReq)
  | postJob (now : Int) (postedDate : String) (stamp : Nat → Stamp) (req : JobReq)
  | getJobs
  | searchJobs (q : SearchReq)
  | deleteJob (jobId : Option Int)
  | submit (now : Int) (appliedDate : String) (req : ApplicationReq)
  | applicationsForJob (jobId : Option Int)
  | getApplications
  | invite (applicationId : Option Int) (st : Stamp) (inviteSentDate : String)
  | getNotifications (userId : Option Int)
  | unreadCount (userId : Option Int)
  | markRead (notificationId : Option ℚ)
  | markAllRead (userId : Option Int)
  | clear (userId : Option Int)

/-- Routing: the handler of each request. -/
def handle (B : Builtins) (s : Store) : Op → Response × Store
  | .getUsers => getUsers s
  | .register now req => registerUser s now req
  | .login req => login s req
  | .postJob now postedDate stamp req => postJob s now postedDate stamp req
  | .getJobs => getJobs s
  | .searchJobs q => searchJobs B s q
  | .deleteJob jobId => deleteJob s jobId
  | .submit now appliedDate req => submitApplication s now appliedDate req
  | .applicationsForJob jobId => getApplicationsForJob s jobId
  | .getApplications => getApplications s
  | .invite applicationId st inviteSentDate => invite B s applicationId st inviteSentDate
  | .getNotifications userId => getNotifications s userId
  | .unreadCount userId => getUnreadCount s userId
  | .markRead notificationId => markRead s notificationId
  | .markAllRead userId => markAllRead s userId
  | .clear userId => clearNotifications s userId

/-- The store after a sequence of requests served one after another. -/
def run (B : Builtins) (s : Store) : List Op → Store
  | [] => s
  | op :: ops => run B (handle B s op).2 ops

/-- A store the server can be in: the one left by some sequence of requests served
from the empty store. -/
def Reachable (B : Builtins) (s : Store) : Prop :=
  ∃ ops : List Op, run B Store.empty ops = s

/-! ## Flag monotonicity, as a relation between two states of a collection -/

/-- Record `a'` is record `a` with at most its invitation fields rewritten, and with
`inviteSent` not taken back from `true`. -/
def InviteKept (a a' : Application) : Prop :=
  { a' with inviteSent := a.inviteSent, inviteSentDate := a.inviteSentDate } = a ∧
  (a.inviteSent = true → a'.inviteSent = true)

/-- Record `n'` is record `n` with at most its `read` flag rewritten, and with `read`
not taken back from `true`. -/
def ReadKept (n n' : Notification) : Prop :=
  { n' with read := n.read } = n ∧ (n.read = true → n'.read = true)

/-- Every record of `before` is still there in `after`, at its position and related to
its old self by `R`; `after` may have more records at its end. -/
def KeptList {α : Type} (R : α → α → Prop) (before after : List α) : Prop :=
  ∃ kept extra : List α, after = kept ++ extra ∧ List.Forall₂ R before kept

/-- The request is a `DELETE /notifications/:userId`. -/
def Op.isClear : Op → Bool
  | .clear _ => true
  | _ => false

/-! ## Sample data, for evaluating the handlers -/

/-- A choice of the open library behaviour: lower-casing of the ASCII letters, the text
of a plain object for every value that is not a string, and the usual wording of the
`TypeError`. -/
def sampleBuiltins : Builtins :=
  { toLowerCase := fun s => String.mk (s.data.map Char.toLower),
    stringOf := fun _ => "[object Object]",
    typeError := fun expr _ => expr ++ ".toLowerCase is not a function" }

/-- The number `7/2`, in lowest terms. -/
def sevenHalves : ℚ :=
  { num := 7, den := 2, den_nz := by decide, reduced := by decide }

/-- Every notification gets the identifier `7/2` in these examples. -/
def sampleStamp : Nat → Stamp :=
  fun _ => { id := sevenHalves, createdAt := "t1" }

/-- Sign-up of a job seeker. -/
def seekerReq : UserReq :=
  { name := some "Asha", email := some (.string "asha@x.io"), password := some "pw",
    role := some "jobseeker" }

/-- Sign-up of an employer. -/
def employerReq : UserReq :=
  { name := some "Bo", email := some (.string "bo@x.io"), password := some "pw",
    role := some "employer" }

/-- The two sign-ups above served within the same millisecond `1`. -/
def sameTickUsers : Store :=
  { users :=
      [ { id := 1, name := "Asha", email := .string "asha@x.io", password := "pw",
          role := "jobseeker" },
        { id := 1, name := "Bo", email := .string "bo@x.io", password := "pw",
          role := "employer" } ],
    jobs := [], applications := [], notifications := [] }

/-- Sign-up with the array `[1]` as email. -/
def arrayReq : UserReq :=
  { name := some "Ann", email := some (.object "[1]"), password := some "pw",
    role := some "jobseeker" }

/-- The sign-up `arrayReq` served twice, at the milliseconds `1` and `2`. -/
def twinStore : Store :=
  { users :=
      [ { id := 1, name := "Ann", email := .object "[1]", password := "pw",
          role := "jobseeker" },
        { id := 2, name := "Ann", email := .object "[1]", password := "pw",
          role := "jobseeker" } ],
    jobs := [], applications := [], notifications := [] }

/-- A job posting that names only the required fields. -/
def backendReq : JobReq :=
  { title := some "Backend Engineer", company := some "Acme", location := some "Remote",
    type := none, salary := none, description := none, requirements := none }

/-- An application for job `10` by "Asha@X.io", not yet invited. -/
def ashaApplication : Application :=
  { id := 5, jobId := some 10, name := "Asha", email := .string "Asha@X.io", phone := "1",
    location := "Pune", qualification := "BSc", resumeFileName := "Not provided",
    interviewPreference := "Online", message := "", inviteSent := false,
    inviteSentDate := none, appliedDate := "t0" }

/-- The job `10`. -/
def backendJob : Job :=
  { id := 10, title := "Backend Engineer", company := "Acme", location := "Remote",
    type := "Full Time", salary := "Not specified", description := "", requirements := "",
    postedDate := "t0" }

/-- The job seeker registered as "asha@x.io". -/
def ashaUser : User :=
  { id := 1, name := "Asha", email := .string "asha@x.io", password := "pw",
    role := "jobseeker" }

/-- A store where the applicant of `ashaApplication` is registered, in another case. -/
def inviteStore : Store :=
  { users := [ashaUser], jobs := [backendJob], applications := [ashaApplication],
    notifications := [] }

/-- An employer registered as "zed@x.io". -/
def zedUser : User :=
  { id := 2, name := "Zed", email := .string "zed@x.io", password := "pw",
    role := "employer" }

/-- A user who signed up with the number `42` as email. -/
def numberUser : User :=
  { id := 3, name := "Num", email := .number 42, password := "pw", role := "employer" }

/-- An application for job `10` by "bo@x.io", who has no account. -/
def boApplication : Application :=
  { ashaApplication with id := 4, name := "Bo", email := .string "bo@x.io" }

/-- An application for job `10` by "Cy@X.io", who has no account either. -/
def cyApplication : Application :=
  { ashaApplication with id := 6, name := "Cy", email := .string "Cy@X.io" }

/-- An application for job `10` whose email field was sent as the number `42`. -/
def numberApplication : Application :=
  { ashaApplication with email := .number 42 }

/-- An application form naming job `77`. -/
def orphanReq : ApplicationReq :=
  { jobId := { truthy := true, parsed := some 77 }, name := some "Asha",
    email := some (.string "asha@x.io"), phone := some "1",
    location := some "Pune", qualification := some "BSc", resumeFileName := none,
    interviewPreference := none, message := none }

/-- The application form that `ashaApplication` comes from. -/
def ashaForm : ApplicationReq :=
  { jobId := { truthy := true, parsed := some 10 }, name := some "Asha",
    email := some (.string "Asha@X.io"), phone := some "1", location := some "Pune",
    qualification := some "BSc", resumeFileName := none,
    interviewPreference := some "Online", message := none }

/-- The posting `backendReq` with a job type chosen by the employer. -/
def partTimeReq : JobReq :=
  { backendReq with type := some "Part Time" }

/-- The notification of job `10` for `ashaUser`, unread. -/
def ashaNotification : Notification :=
  jobNotification 10 "Backend Engineer" "Acme" "Remote" none (sampleStamp 0) ashaUser

/-- A notification of job `10` for user `2`, unread, with the same identifier. -/
def otherNotification : Notification :=
  { ashaNotification with userId := 2 }

/-- A store with one job, one application for it and two notifications about it. -/
def busyStore : Store :=
  { users := [ashaUser], jobs := [backendJob], applications := [ashaApplication],
    notifications := [ashaNotification, otherNotification] }

/-- Two users, three applications for job `10` and an earlier notification; only the
second application comes from a registered user, the second of the directory. -/
def crowdStore : Store :=
  { users := [zedUser, ashaUser], jobs := [backendJob],
    applications := [boApplication, ashaApplication, cyApplication],
    notifications := [otherNotification] }

/-- The store after these requests: sign-up with the email `42`, sign-up of
"asha@x.io", posting of job `10`, application of "Asha@X.io" for it. -/
def mixedStore : Store :=
  { users := [numberUser, ashaUser], jobs := [backendJob],
    applications := [ashaApplication], notifications := [ashaNotification] }

/-- The store after these requests: sign-up of "asha@x.io", posting of job `10`, an
application for it whose email is the number `42`. -/
def numberApplicationStore : Store :=
  { users := [ashaUser], jobs := [backendJob], applications := [numberApplication],
    notifications := [ashaNotification] }

/-- The store `busyStore` after the applicant was invited and read the notification. -/
def invitedStore : Store :=
  { busyStore with
    applications := [markInvited "t2" ashaApplication],
    notifications := [setRead ashaNotification, otherNotification] }

/-- A day of requests without any ClearForUser: a second invite, a new application, a
new job, a deletion and the read-state requests. -/
def busyDay : List Op :=
  [ .invite (some 5) (sampleStamp 0) "t3",
    .submit 8 "t3" orphanReq,
    .postJob 12 "t3" sampleStamp partTimeReq,
    .deleteJob (some 10),
    .markRead (some sevenHalves),
    .markAllRead (some 2),
    .unreadCount (some 1) ]

/-! # Properties -/

/-! ## Helper lemmas -/

theorem truthy_some {v : String} (h : v ≠ "") : truthy (some v) = true := by
  simp [truthy, h]

theorem notifyJobseekers_append (jobId : Int) (title company location : String)
    (type : Option String) (stamp : Nat → Stamp) (users : List User) :
    ∀ (i : Nat) (acc : List Notification),
      ∃ news : List Notification,
        notifyJobseekers jobId title company location type stamp i users acc = acc ++ news ∧
        List.Forall₂
          (fun u n => ∃ st : Stamp, n = jobNotification jobId title company location type st u)
          (users.filter (fun u => decide (u.role = "jobseeker"))) news := by
  induction users with
  | nil => intro i acc; exact ⟨[], by simp [notifyJobseekers]⟩
  | cons u us ih =>
    intro i acc
    by_cases hu : u.role = "jobseeker"
    · obtain ⟨news, h1, h2⟩ :=
        ih (i + 1) (acc ++ [jobNotification jobId title company location type (stamp i) u])
      refine ⟨jobNotification jobId title company location type (stamp i) u :: news, ?_, ?_⟩
      · simp [notifyJobseekers, hu, h1]
      · simp only [List.filter_cons, hu, decide_True, if_true]
        exact List.Forall₂.cons ⟨stamp i, rfl⟩ h2
    · obtain ⟨news, h1, h2⟩ := ih (i + 1) acc
      refine ⟨news, ?_, ?_⟩
      · simp [notifyJobseekers, hu, h1]
      · simpa [List.filter_cons, hu] using h2

theorem forall₂_mem_right {α β : Type} {R : α → β → Prop} {k : List α} {m : List β}
    (h : List.Forall₂ R k m) : ∀ n ∈ m, ∃ u ∈ k, R u n := by
  induction h with
  | nil => intro n hn; cases hn
  | cons hab _ ih =>
    intro n hn
    rcases List.mem_cons.1 hn with rfl | hn
    · exact ⟨_, List.mem_cons_self _ _, hab⟩
    · obtain ⟨u, hu, hR⟩ := ih n hn
      exact ⟨u, List.mem_cons_of_mem _ hu, hR⟩

theorem forall₂_filter_mem {α β : Type} {R : α → β → Prop} {p : α → Bool} {l : List α}
    {m : List β} (h : List.Forall₂ R (l.filter p) m) :
    ∀ n ∈ m, ∃ u ∈ l, p u = true ∧ R u n := by
  intro n hn
  obtain ⟨u, hu, hR⟩ := forall₂_mem_right h n hn
  exact ⟨u, (List.mem_filter.1 hu).1, (List.mem_filter.1 hu).2, hR⟩

theorem find?_of_split {α : Type} {p : α → Bool} {pre post : List α} {a : α}
    (ha : p a = true) (hpre : ∀ x ∈ pre, p x = false) :
    (pre ++ a :: post).find? p = some a := by
  induction pre with
  | nil => simp [ha]
  | cons x xs ih =>
    have hx : p x = false := hpre x (List.mem_cons_self _ _)
    simp only [List.cons_append, List.find?_cons, hx]
    exact ih (fun y hy => hpre y (List.mem_cons_of_mem _ hy))

theorem updateFirst_of_split {α : Type} {p : α → Bool} (f : α → α) {pre post : List α}
    {a : α}
    (ha : p a = true) (hpre : ∀ x ∈ pre, p x = false) :
    updateFirst p f (pre ++ a :: post) = pre ++ f a :: post := by
  induction pre with
  | nil => simp [updateFirst, ha]
  | cons x xs ih =>
    have hx : p x = false := hpre x (List.mem_cons_self _ _)
    simp only [List.cons_append, updateFirst, hx]
    simp [ih (fun y hy => hpre y (List.mem_cons_of_mem _ hy))]

theorem split_of_find? {α : Type} {p : α → Bool} {l : List α} {a : α}
    (h : l.find? p = some a) :
    p a = true ∧ ∃ pre post, l = pre ++ a :: post ∧ ∀ x ∈ pre, p x = false := by
  obtain ⟨ha, pre, post, hl, hpre⟩ := List.find?_eq_some.1 h
  exact ⟨ha, pre, post, hl, fun x hx => by simpa using hpre x hx⟩

theorem find?_isSome_of_mem {α : Type} {p : α → Bool} {l : List α} {a : α}
    (ha : a ∈ l) (hp : p a = true) : ∃ b, l.find? p = some b := by
  cases h : l.find? p with
  | some b => exact ⟨b, rfl⟩
  | none =>
    have := List.find?_eq_none.1 h a ha
    exact absurd hp this

theorem forall₂_self {α : Type} {R : α → α → Prop} (h : ∀ x, R x x) (l : List α) :
    List.Forall₂ R l l := by
  induction l with
  | nil => exact List.Forall₂.nil
  | cons x xs ih => exact List.Forall₂.cons (h x) ih

theorem forall₂_trans {α : Type} {R : α → α → Prop}
    (h : ∀ x y z, R x y → R y z → R x z) :
    ∀ {l₁ l₂ l₃ : List α}, List.Forall₂ R l₁ l₂ → List.Forall₂ R l₂ l₃ →
      List.Forall₂ R l₁ l₃ := by
  intro l₁ l₂ l₃ h12
  induction h12 generalizing l₃ with
  | nil => intro h23; cases h23; exact List.Forall₂.nil
  | cons hab _ ih =>
    intro h23
    cases h23 with
    | cons hbc htail => exact List.Forall₂.cons (h _ _ _ hab hbc) (ih htail)

theorem forall₂_updateFirst {α : Type} {R : α → α → Prop} (p : α → Bool) (f : α → α)
    (hrefl : ∀ x, R x x) (hf : ∀ x, R x (f x)) (l : List α) :
    List.Forall₂ R l (updateFirst p f l) := by
  induction l with
  | nil => exact List.Forall₂.nil
  | cons x xs ih =>
    by_cases hx : p x = true
    · simp only [updateFirst, hx, if_true]
      exact List.Forall₂.cons (hf x) (forall₂_self hrefl xs)
    · simp only [updateFirst, hx]
      exact List.Forall₂.cons (hrefl x) ih

theorem KeptList.refl {α : Type} {R : α → α → Prop} (h : ∀ x, R x x) (l : List α) :
    KeptList R l l :=
  ⟨l, [], by simp, forall₂_self h l⟩

theorem KeptList.append {α : Type} {R : α → α → Prop} (h : ∀ x, R x x)
    (l extra : List α) :
    KeptList R l (l ++ extra) :=
  ⟨l, extra, rfl, forall₂_self h l⟩

theorem KeptList.of_forall₂ {α : Type} {R : α → α → Prop} {l m : List α}
    (h : List.Forall₂ R l m) : KeptList R l m :=
  ⟨m, [], by simp, h⟩

theorem KeptList.trans {α : Type} {R : α → α → Prop}
    (h : ∀ x y z, R x y → R y z → R x z) {l₁ l₂ l₃ : List α}
    (h12 : KeptList R l₁ l₂) (h23 : KeptList R l₂ l₃) : KeptList R l₁ l₃ := by
  obtain ⟨k1, e1, rfl, hk1⟩ := h12
  obtain ⟨k2, e2, rfl, hk2⟩ := h23
  have htake := List.forall₂_take k1.length hk2
  rw [List.take_left] at htake
  refine ⟨k2.take k1.length, k2.drop k1.length ++ e2, ?_, forall₂_trans h hk1 htake⟩
  rw [← List.append_assoc, List.take_append_drop]

theorem inviteKept_refl (a : Application) : InviteKept a a :=
  ⟨rfl, id⟩

theorem inviteKept_trans (a b c : Application) (hab : InviteKept a b) (hbc : InviteKept b c) :
    InviteKept a c := by
  obtain ⟨h1, h2⟩ := hab
  obtain ⟨h3, h4⟩ := hbc
  refine ⟨?_, fun h => h4 (h2 h)⟩
  rw [← h1, ← h3]

theorem inviteKept_markInvited (d : String) (a : Application) :
    InviteKept a (markInvited d a) :=
  ⟨rfl, fun _ => rfl⟩

theorem readKept_refl (n : Notification) : ReadKept n n :=
  ⟨rfl, id⟩

theorem readKept_trans (a b c : Notification) (hab : ReadKept a b) (hbc : ReadKept b c) :
    ReadKept a c := by
  obtain ⟨h1, h2⟩ := hab
  obtain ⟨h3, h4⟩ := hbc
  refine ⟨?_, fun h => h4 (h2 h)⟩
  rw [← h1, ← h3]

theorem readKept_setRead (n : Notification) : ReadKept n (setRead n) :=
  ⟨rfl, fun _ => rfl⟩

theorem strictEq_self_of_primitive (v : JsValue) (hnull : v ≠ .null)
    (hobj : ∀ json, v ≠ .object json) : strictEq v v = true := by
  cases v with
  | null => exact absurd rfl hnull
  | object json => exact absurd rfl (hobj json)
  | bool b => simp [strictEq]
  | number q => simp [strictEq]
  | infinite negative => simp [strictEq]
  | string t => simp [strictEq]

theorem strictEq_string (v : JsValue) (e : String) :
    strictEq v (.string e) = true ↔ v = .string e := by
  cases v <;> simp [strictEq]

theorem registerUser_users (s : Store) (now : Int) (req : UserReq) :
    (registerUser s now req).2.users = s.users ∨
      ∃ (v : JsValue) (nu : User), (∀ u ∈ s.users, strictEq u.email v = false) ∧
        nu.email = persist v ∧ (registerUser s now req).2.users = s.users ++ [nu] := by
  unfold registerUser
  split_ifs with h1 h2
  · exact Or.inl rfl
  · exact Or.inl rfl
  · right
    exact ⟨req.email.getD .null, _, by simpa using h2, rfl, rfl⟩

theorem findUserByEmail_of_split (B : Builtins) (ae ue : String) (upre upost : List User)
    (u : User) (hue : u.email = .string ue)
    (hmatch : B.toLowerCase ue = B.toLowerCase ae)
    (hupre : ∀ x ∈ upre,
      ∃ xe, x.email = .string xe ∧ B.toLowerCase xe ≠ B.toLowerCase ae) :
    findUserByEmail B (.string ae) (upre ++ u :: upost) = .ok (some u) := by
  induction upre with
  | nil => simp [findUserByEmail, toLowerCase, hue, hmatch]
  | cons x xs ih =>
    obtain ⟨xe, hxe, hne⟩ := hupre x (List.mem_cons_self _ _)
    simp only [List.cons_append, findUserByEmail, toLowerCase, hxe, hne, if_false]
    exact ih (fun y hy => hupre y (List.mem_cons_of_mem _ hy))

theorem findUserByEmail_none (B : Builtins) (email : JsValue) (users : List User)
    (h : ∀ x ∈ users, ∃ xe ae, x.email = .string xe ∧ email = .string ae ∧
      B.toLowerCase xe ≠ B.toLowerCase ae) :
    findUserByEmail B email users = .ok none := by
  induction users with
  | nil => rfl
  | cons x xs ih =>
    obtain ⟨xe, ae, hxe, hae, hne⟩ := h x (List.mem_cons_self _ _)
    rw [hae] at ih
    simp only [hae, findUserByEmail, toLowerCase, hxe, hne, if_false]
    exact ih (fun y hy => by simpa [hae] using h y (List.mem_cons_of_mem _ hy))

theorem handle_users (B : Builtins) (s : Store) (op : Op) :
    (handle B s op).2.users = s.users ∨ ∃ now req, op = .register now req := by
  cases op with
  | register now req => exact Or.inr ⟨now, req, rfl⟩
  | postJob now postedDate stamp req =>
    left
    simp only [handle, postJob]
    split_ifs <;> rfl
  | deleteJob jobId =>
    left
    simp only [handle, deleteJob]
    split_ifs <;> rfl
  | submit now appliedDate req =>
    left
    simp only [handle, submitApplication]
    split_ifs <;> rfl
  | invite applicationId st d =>
    left
    simp only [handle, invite]
    split
    · rfl
    · split
      · rfl
      · split <;> rfl
  | login req =>
    left
    simp only [handle, login]
    split <;> rfl
  | markRead notificationId =>
    left
    simp only [handle, markRead]
    split <;> rfl
  | _ => exact Or.inl rfl

theorem handle_applications (B : Builtins) (s : Store) (op : Op) :
    KeptList InviteKept s.applications (handle B s op).2.applications := by
  cases op with
  | register now req =>
    simp only [handle, registerUser]
    split_ifs <;> exact KeptList.refl inviteKept_refl _
  | postJob now postedDate stamp req =>
    simp only [handle, postJob]
    split_ifs <;> exact KeptList.refl inviteKept_refl _
  | deleteJob jobId =>
    simp only [handle, deleteJob]
    split_ifs <;> exact KeptList.refl inviteKept_refl _
  | submit now appliedDate req =>
    simp only [handle, submitApplication]
    split_ifs
    · exact KeptList.refl inviteKept_refl _
    · exact KeptList.append inviteKept_refl _ _
  | invite applicationId st d =>
    have hupd : KeptList InviteKept s.applications
        (updateFirst (fun app => decide (some app.id = applicationId)) (markInvited d)
          s.applications) :=
      KeptList.of_forall₂
        (forall₂_updateFirst _ _ inviteKept_refl (inviteKept_markInvited d) _)
    simp only [handle, invite]
    split
    · exact KeptList.refl inviteKept_refl _
    · split
      · exact KeptList.refl inviteKept_refl _
      · split
        · exact KeptList.refl inviteKept_refl _
        · exact hupd
        · exact hupd
  | login req =>
    simp only [handle, login]
    split <;> exact KeptList.refl inviteKept_refl _
  | markRead notificationId =>
    simp only [handle, markRead]
    split <;> exact KeptList.refl inviteKept_refl _
  | _ => exact KeptList.refl inviteKept_refl _

theorem handle_notifications (B : Builtins) (s : Store) (op : Op) :
    KeptList ReadKept s.notifications (handle B s op).2.notifications ∨
      ∃ u, op = .clear u ∧
        (handle B s op).2.notifications =
          s.notifications.filter (fun n => decide (some n.userId ≠ u)) := by
  cases op with
  | clear userId => exact Or.inr ⟨userId, rfl, rfl⟩
  | register now req =>
    left
    simp only [handle, registerUser]
    split_ifs <;> exact KeptList.refl readKept_refl _
  | postJob now postedDate stamp req =>
    left
    obtain ⟨news, hrun, _⟩ :=
      notifyJobseekers_append now (req.title.getD "") (req.company.getD "")
        (req.location.getD "") req.type stamp s.users 0 s.notifications
    simp only [handle, postJob]
    split_ifs
    · exact KeptList.refl readKept_refl _
    · simp only [hrun]
      exact KeptList.append readKept_refl _ _
  | deleteJob jobId =>
    left
    simp only [handle, deleteJob]
    split_ifs <;> exact KeptList.refl readKept_refl _
  | submit now appliedDate req =>
    left
    simp only [handle, submitApplication]
    split_ifs <;> exact KeptList.refl readKept_refl _
  | invite applicationId st d =>
    left
    simp only [handle, invite]
    split
    · exact KeptList.refl readKept_refl _
    · split
      · exact KeptList.refl readKept_refl _
      · split
        · exact KeptList.refl readKept_refl _
        · exact KeptList.refl readKept_refl _
        · exact KeptList.append readKept_refl _ _
  | login req =>
    left
    simp only [handle, login]
    split <;> exact KeptList.refl readKept_refl _
  | markRead notificationId =>
    left
    simp only [handle, markRead]
    split
    · exact KeptList.of_forall₂ (forall₂_updateFirst _ _ readKept_refl readKept_setRead _)
    · exact KeptList.refl readKept_refl _
  | markAllRead userId =>
    left
    simp only [handle, markAllRead]
    refine KeptList.of_forall₂ ?_
    generalize s.notifications = l
    induction l with
    | nil => exact List.Forall₂.nil
    | cons n ns ih =>
      rw [List.map_cons]
      refine List.Forall₂.cons ?_ ih
      split_ifs
      · exact readKept_setRead n
      · exact readKept_refl n
  | _ => exact Or.inl (KeptList.refl readKept_refl _)

theorem run_append (B : Builtins) (s : Store) (ops : List Op) (op : Op) :
    run B s (ops ++ [op]) = (handle B (run B s ops) op).2 := by
  induction ops generalizing s with
  | nil => rfl
  | cons o os ih => exact ih (handle B s o).2

/-! ## C1: job-post fan-out -/

/-- C1 (as amended).  For every store and every job-creation request whose title,
company and location are non-empty, the handler answers with the new job, the job list
grows by exactly that job, and the notification collection becomes the previous one
followed by one new notification per user of role `jobseeker`, in directory order, each
with that user's id, the new job's id, `read = false` and the job's title, company and
location.  Every new notification carries the id of a job seeker of the directory, so a
user of another role whose id differs from every job seeker's id is referenced by none
of them; with no job seeker the notification collection is unchanged. -/
theorem postJob_fanOut (s : Store) (now : Int) (postedDate : String) (stamp : Nat → Stamp)
    (req : JobReq) (title company location : String)
    (ht : req.title = some title) (hc : req.company = some company)
    (hl : req.location = some location)
    (ht0 : title ≠ "") (hc0 : company ≠ "") (hl0 : location ≠ "") :
    ∃ (newJob : Job) (news : List Notification),
      (postJob s now postedDate stamp req).1 =
        .reply { status := 200, success := true, message := "Job added successfully!",
                 job := some newJob } ∧
      newJob.id = now ∧ newJob.title = title ∧ newJob.company = company ∧
      newJob.location = location ∧
      (postJob s now postedDate stamp req).2.jobs = s.jobs ++ [newJob] ∧
      (postJob s now postedDate stamp req).2.users = s.users ∧
      (postJob s now postedDate stamp req).2.applications = s.applications ∧
      (postJob s now postedDate stamp req).2.notifications = s.notifications ++ news ∧
      List.Forall₂
        (fun u n => n.userId = u.id ∧ n.jobId = newJob.id ∧ n.read = false ∧
          n.jobTitle = newJob.title ∧ n.company = newJob.company ∧
          n.location = newJob.location)
        (s.users.filter (fun u => decide (u.role = "jobseeker"))) news ∧
      (∀ n ∈ news, ∃ u ∈ s.users, u.role = "jobseeker" ∧ n.userId = u.id) ∧
      (∀ v ∈ s.users, v.role ≠ "jobseeker" →
        (∀ u ∈ s.users, u.role = "jobseeker" → u.id ≠ v.id) →
        ∀ n ∈ news, n.userId ≠ v.id) ∧
      ((∀ u ∈ s.users, u.role ≠ "jobseeker") →
        (postJob s now postedDate stamp req).2.notifications = s.notifications) := by
  obtain ⟨news, hrun, hall⟩ :=
    notifyJobseekers_append now title company location req.type stamp s.users 0 s.notifications
  have hfields : List.Forall₂
      (fun (u : User) (n : Notification) => n.userId = u.id ∧ n.jobId = now ∧ n.read = false ∧
        n.jobTitle = title ∧ n.company = company ∧ n.location = location)
      (s.users.filter (fun u => decide (u.role = "jobseeker"))) news := by
    refine hall.imp ?_
    rintro u n ⟨st, rfl⟩
    simp [jobNotification]
  have hmem : ∀ n ∈ news, ∃ u ∈ s.users, u.role = "jobseeker" ∧ n.userId = u.id := by
    intro n hn
    obtain ⟨u, hu, hrole, hR⟩ := forall₂_filter_mem hfields n hn
    exact ⟨u, hu, by simpa using hrole, hR.1⟩
  have hpost : postJob s now postedDate stamp req =
      (.reply { status := 200, success := true, message := "Job added successfully!",
                job := some
                  { id := now, title := title, company := company, location := location,
                    type := orDefault req.type "Full Time",
                    salary := orDefault req.salary "Not specified",
                    description := orDefault req.description "",
                    requirements := orDefault req.requirements "",
                    postedDate := postedDate } },
        { s with
          jobs := s.jobs ++
            [{ id := now, title := title, company := company, location := location,
               type := orDefault req.type "Full Time",
               salary := orDefault req.salary "Not specified",
               description := orDefault req.description "",
               requirements := orDefault req.requirements "",
               postedDate := postedDate }],
          notifications := s.notifications ++ news }) := by
    simp [postJob, ht, hc, hl, truthy_some ht0, truthy_some hc0, truthy_some hl0, hrun]
  refine ⟨_, news, by rw [hpost], rfl, rfl, rfl, rfl, by rw [hpost], by rw [hpost],
    by rw [hpost], by rw [hpost], hfields, hmem, ?_, ?_⟩
  · intro v _ _ hdistinct n hn heq
    obtain ⟨u, hu, hrole, hid⟩ := hmem n hn
    exact hdistinct u hu hrole (hid.symm.trans heq)
  · intro hnone
    have hfilter : s.users.filter (fun u => decide (u.role = "jobseeker")) = [] := by
      simpa [List.filter_eq_nil_iff] using hnone
    rw [hfilter] at hfields
    cases hfields
    rw [hpost]
    simp

/-- Instance of `postJob_fanOut`: the scenario of the specification, two job seekers and
one employer, posting "Backend Engineer" at "Acme", "Remote". -/
theorem postJob_fanOut_witness :
    ∃ (newJob : Job) (news : List Notification),
      (postJob
          { users :=
              [ { id := 1, name := "A", email := .string "a@x", password := "p",
                  role := "jobseeker" },
                { id := 2, name := "B", email := .string "b@x", password := "p",
                  role := "employer" },
                { id := 3, name := "C", email := .string "c@x", password := "p",
                  role := "jobseeker" } ],
            jobs := [], applications := [], notifications := [] }
          9 "t0" sampleStamp backendReq).2.notifications = [] ++ news ∧
      news.map (fun n => (n.userId, n.jobId)) = [(1, 9), (3, 9)] ∧ newJob.id = 9 := by
  obtain ⟨newJob, news, _, hid, _, _, _, _, _, _, hn, _⟩ :=
    postJob_fanOut
      { users :=
          [ { id := 1, name := "A", email := .string "a@x", password := "p",
              role := "jobseeker" },
            { id := 2, name := "B", email := .string "b@x", password := "p",
              role := "employer" },
            { id := 3, name := "C", email := .string "c@x", password := "p",
              role := "jobseeker" } ],
        jobs := [], applications := [], notifications := [] }
      9 "t0" sampleStamp backendReq "Backend Engineer" "Acme" "Remote" rfl rfl rfl
      (by decide) (by decide) (by decide)
  refine ⟨newJob, news, hn, ?_, hid⟩
  have h2 : news = [jobNotification 9 "Backend Engineer" "Acme" "Remote" none (sampleStamp 0)
        { id := 1, name := "A", email := .string "a@x", password := "p", role := "jobseeker" },
      jobNotification 9 "Backend Engineer" "Acme" "Remote" none (sampleStamp 2)
        { id := 3, name := "C", email := .string "c@x", password := "p",
          role := "jobseeker" }] := by
    have h3 := hn
    simp [postJob, backendReq, truthy, notifyJobseekers] at h3
    exact h3.symm
  rw [h2]
  simp [jobNotification]

/-- C1, the claim as stated fails: two sign-ups served in the same millisecond leave a
job seeker and an employer with the same id (a reachable store), and the notification
created by the next job posting then carries the id of the employer. -/
theorem postJob_fanOut_counterexample :
    Reachable sampleBuiltins sameTickUsers ∧
    (postJob sameTickUsers 2 "t0" sampleStamp backendReq).2.notifications =
      sameTickUsers.notifications ++
        [jobNotification 2 "Backend Engineer" "Acme" "Remote" none (sampleStamp 0)
          { id := 1, name := "Asha", email := .string "asha@x.io", password := "pw",
            role := "jobseeker" }] ∧
    ∃ v ∈ sameTickUsers.users, v.role ≠ "jobseeker" ∧
      (jobNotification 2 "Backend Engineer" "Acme" "Remote" none (sampleStamp 0)
          { id := 1, name := "Asha", email := .string "asha@x.io", password := "pw",
            role := "jobseeker" }).userId = v.id := by
  refine ⟨⟨[.register 1 seekerReq, .register 1 employerReq], by decide⟩, by decide, ?_⟩
  exact ⟨{ id := 1, name := "Bo", email := .string "bo@x.io", password := "pw",
           role := "employer" },
    by decide, by decide, rfl⟩

/-! ## C2 - C4: the invite workflow -/

/-- C2 (as amended).  Let `a` be the application the lookup by id `i` returns (the first
one with that id), let some job carry the id `a.jobId`, let `a.email` be a string, and
let `u` be the first user of the directory whose email equals it up to case, every user
before `u` having a string as email.  Then the invite succeeds, exactly one notification
is appended to the otherwise unchanged notification collection, with
`applicationId = a.id`, `userId = u.id`, `jobId` the job's id and `read = false`, and `a`
alone is changed, to `inviteSent = true`. -/
theorem invite_matching_user (B : Builtins) (s : Store) (i : Int) (st : Stamp) (d : String)
    (pre post : List Application) (a : Application)
    (hsplit : s.applications = pre ++ a :: post) (hid : a.id = i)
    (hfirst : ∀ x ∈ pre, x.id ≠ i)
    (hjob : ∃ j ∈ s.jobs, some j.id = a.jobId)
    (ae ue : String) (upre upost : List User) (u : User)
    (hae : a.email = .string ae)
    (husers : s.users = upre ++ u :: upost)
    (hue : u.email = .string ue)
    (hmatch : B.toLowerCase ue = B.toLowerCase ae)
    (hupre : ∀ x ∈ upre,
      ∃ xe, x.email = .string xe ∧ B.toLowerCase xe ≠ B.toLowerCase ae) :
    ∃ (j : Job) (n : Notification),
      j ∈ s.jobs ∧ some j.id = a.jobId ∧
      (invite B s (some i) st d).1 =
        .reply { status := 200, success := true, message := "Invitation sent successfully",
                 notificationCreated := some true, userNotified := some u.name } ∧
      (invite B s (some i) st d).2.notifications = s.notifications ++ [n] ∧
      n.applicationId = some a.id ∧ n.userId = u.id ∧ n.jobId = j.id ∧ n.read = false ∧
      (invite B s (some i) st d).2.applications =
        pre ++ { a with inviteSent := true, inviteSentDate := some d } :: post ∧
      (invite B s (some i) st d).2.users = s.users ∧
      (invite B s (some i) st d).2.jobs = s.jobs := by
  have hpa : (fun app : Application => decide (some app.id = some i)) a = true := by
    simp [hid]
  have hppre : ∀ x ∈ pre,
      (fun app : Application => decide (some app.id = some i)) x = false := by
    intro x hx
    simpa using hfirst x hx
  have hfindA : s.applications.find? (fun app => decide (some app.id = some i)) = some a := by
    rw [hsplit]
    exact find?_of_split hpa hppre
  have hupd : updateFirst (fun app => decide (some app.id = some i)) (markInvited d)
      s.applications = pre ++ markInvited d a :: post := by
    rw [hsplit]
    exact updateFirst_of_split _ hpa hppre
  obtain ⟨j0, hj0, hj0id⟩ := hjob
  obtain ⟨j, hfindJ⟩ :=
    find?_isSome_of_mem (p := fun j : Job => decide (some j.id = a.jobId)) hj0
      (by simpa using hj0id)
  have hfindU : findUserByEmail B a.email s.users = .ok (some u) := by
    rw [hae, husers]
    exact findUserByEmail_of_split B ae ue upre upost u hue hmatch hupre
  have hrun : invite B s (some i) st d =
      (.reply { status := 200, success := true, message := "Invitation sent successfully",
                notificationCreated := some true, userNotified := some u.name },
        { s with
          notifications := s.notifications ++ [inviteNotification st u j a],
          applications := pre ++ markInvited d a :: post }) := by
    simp only [invite, hfindA, hfindJ, hfindU, hupd]
  exact ⟨j, inviteNotification st u j a, List.mem_of_find?_eq_some hfindJ,
    by simpa using List.find?_some hfindJ, by rw [hrun], by rw [hrun], rfl, rfl, rfl, rfl,
    by rw [hrun]; rfl, by rw [hrun], by rw [hrun]⟩

/-- Instance of `invite_matching_user`: the second of three applications comes from
"Asha@X.io", registered as "asha@x.io" behind another user; she is the one notified,
after the notification that was already there. -/
theorem invite_matching_user_witness :
    ∃ (j : Job) (n : Notification),
      j ∈ crowdStore.jobs ∧ some j.id = ashaApplication.jobId ∧
      (invite sampleBuiltins crowdStore (some 5) (sampleStamp 0) "t2").1 =
        .reply { status := 200, success := true, message := "Invitation sent successfully",
                 notificationCreated := some true, userNotified := some ashaUser.name } ∧
      (invite sampleBuiltins crowdStore (some 5) (sampleStamp 0) "t2").2.notifications =
        crowdStore.notifications ++ [n] ∧
      n.applicationId = some ashaApplication.id ∧ n.userId = ashaUser.id ∧ n.jobId = j.id ∧
      n.read = false ∧
      (invite sampleBuiltins crowdStore (some 5) (sampleStamp 0) "t2").2.applications =
        [boApplication] ++
          { ashaApplication with inviteSent := true, inviteSentDate := some "t2" } ::
            [cyApplication] ∧
      (invite sampleBuiltins crowdStore (some 5) (sampleStamp 0) "t2").2.users =
        crowdStore.users ∧
      (invite sampleBuiltins crowdStore (some 5) (sampleStamp 0) "t2").2.jobs =
        crowdStore.jobs :=
  invite_matching_user sampleBuiltins crowdStore 5 (sampleStamp 0) "t2" [boApplication]
    [cyApplication] ashaApplication rfl rfl (by decide) ⟨backendJob, by decide, by decide⟩
    "Asha@X.io" "asha@x.io" [zedUser] [] ashaUser rfl rfl rfl (by decide)
    (by
      intro x hx
      rw [List.mem_singleton] at hx
      subst hx
      exact ⟨"zed@x.io", rfl, by decide⟩)

/-- C2, the claim as stated fails: after a sign-up with the email `42`, the sign-up of
"asha@x.io", a job posting and the application of "Asha@X.io" for it (a reachable
store), the application, its job and a user with her email up to case all exist, yet the
invite answers 500 and leaves the store as it was: no notification, `inviteSent` still
`false`. -/
theorem invite_matching_user_counterexample :
    Reachable sampleBuiltins mixedStore ∧
    mixedStore.applications.find? (fun app => decide (some app.id = some 5)) =
      some ashaApplication ∧
    (∃ j ∈ mixedStore.jobs, some j.id = ashaApplication.jobId) ∧
    (∃ u ∈ mixedStore.users, u.email = .string "asha@x.io" ∧
      ashaApplication.email = .string "Asha@X.io" ∧
      sampleBuiltins.toLowerCase "asha@x.io" = sampleBuiltins.toLowerCase "Asha@X.io") ∧
    invite sampleBuiltins mixedStore (some 5) (sampleStamp 0) "t2" =
      (.reply { status := 500, success := false,
                message := "Error sending invitation: u.email.toLowerCase is not a function" },
        mixedStore) ∧
    ashaApplication.inviteSent = false := by
  refine ⟨⟨[.register 3
              { name := some "Num", email := some (.number 42), password := some "pw",
                role := some "employer" },
            .register 1 seekerReq,
            .postJob 10 "t0" sampleStamp backendReq,
            .submit 5 "t0" ashaForm], by decide⟩,
    by decide, ⟨backendJob, by decide, by decide⟩,
    ⟨ashaUser, by decide, rfl, rfl, by decide⟩,
    by decide, rfl⟩

/-- C3 (as amended).  Let `a` be the application the lookup by id `i` returns and let
some job carry the id `a.jobId`, while every user's email is a string, `a.email` is a
string too (unless there is no user at all), and no user's email equals `a.email` up to
case.  Then the invite answers `success = true` with a warning, the notification
collection is exactly what it was, and `a` alone is changed, to `inviteSent = true` with
`inviteSentDate` set. -/
theorem invite_no_matching_user (B : Builtins) (s : Store) (i : Int) (st : Stamp) (d : String)
    (pre post : List Application) (a : Application)
    (hsplit : s.applications = pre ++ a :: post) (hid : a.id = i)
    (hfirst : ∀ x ∈ pre, x.id ≠ i)
    (hjob : ∃ j ∈ s.jobs, some j.id = a.jobId)
    (hnouser : ∀ u ∈ s.users, ∃ ue ae, u.email = .string ue ∧ a.email = .string ae ∧
      B.toLowerCase ue ≠ B.toLowerCase ae) :
    (invite B s (some i) st d).1 =
      .reply { status := 200, success := true,
               message := "Invitation marked as sent, but user account not found for notification",
               warning := some ("No user registered with email " ++ templateText B a.email) } ∧
    (invite B s (some i) st d).2.notifications = s.notifications ∧
    (invite B s (some i) st d).2.applications =
      pre ++ { a with inviteSent := true, inviteSentDate := some d } :: post ∧
    (invite B s (some i) st d).2.users = s.users ∧
    (invite B s (some i) st d).2.jobs = s.jobs := by
  have hpa : (fun app : Application => decide (some app.id = some i)) a = true := by
    simp [hid]
  have hppre : ∀ x ∈ pre,
      (fun app : Application => decide (some app.id = some i)) x = false := by
    intro x hx
    simpa using hfirst x hx
  have hfindA : s.applications.find? (fun app => decide (some app.id = some i)) = some a := by
    rw [hsplit]
    exact find?_of_split hpa hppre
  have hupd : updateFirst (fun app => decide (some app.id = some i)) (markInvited d)
      s.applications = pre ++ markInvited d a :: post := by
    rw [hsplit]
    exact updateFirst_of_split _ hpa hppre
  obtain ⟨j0, hj0, hj0id⟩ := hjob
  obtain ⟨j, hfindJ⟩ :=
    find?_isSome_of_mem (p := fun j : Job => decide (some j.id = a.jobId)) hj0
      (by simpa using hj0id)
  have hfindU : findUserByEmail B a.email s.users = .ok none :=
    findUserByEmail_none B a.email s.users hnouser
  have hrun : invite B s (some i) st d =
      (.reply { status := 200, success := true,
                message :=
                  "Invitation marked as sent, but user account not found for notification",
                warning := some ("No user registered with email " ++ templateText B a.email) },
        { s with applications := pre ++ markInvited d a :: post }) := by
    simp only [invite, hfindA, hfindJ, hfindU, hupd]
  exact ⟨by rw [hrun], by rw [hrun], by rw [hrun]; rfl, by rw [hrun], by rw [hrun]⟩

/-- Instance of `invite_no_matching_user`: two users are registered, neither as
"cy@x.io"; the third application, by "Cy@X.io", is marked invited and nobody is
notified. -/
theorem invite_no_matching_user_witness :
    (invite sampleBuiltins crowdStore (some 6) (sampleStamp 0) "t2").1 =
      .reply { status := 200, success := true,
               message := "Invitation marked as sent, but user account not found for notification",
               warning := some ("No user registered with email " ++
                 templateText sampleBuiltins cyApplication.email) } ∧
    (invite sampleBuiltins crowdStore (some 6) (sampleStamp 0) "t2").2.notifications =
      crowdStore.notifications ∧
    (invite sampleBuiltins crowdStore (some 6) (sampleStamp 0) "t2").2.applications =
      [boApplication, ashaApplication] ++
        { cyApplication with inviteSent := true, inviteSentDate := some "t2" } :: [] ∧
    (invite sampleBuiltins crowdStore (some 6) (sampleStamp 0) "t2").2.users =
      crowdStore.users ∧
    (invite sampleBuiltins crowdStore (some 6) (sampleStamp 0) "t2").2.jobs =
      crowdStore.jobs :=
  invite_no_matching_user sampleBuiltins crowdStore 6 (sampleStamp 0) "t2"
    [boApplication, ashaApplication] [] cyApplication rfl rfl (by decide)
    ⟨backendJob, by decide, by decide⟩
    (by
      intro u hu
      have hcases : u = zedUser ∨ u = ashaUser := by simpa [crowdStore] using hu
      rcases hcases with rfl | rfl
      · exact ⟨"zed@x.io", "Cy@X.io", rfl, rfl, by decide⟩
      · exact ⟨"asha@x.io", "Cy@X.io", rfl, rfl, by decide⟩)

/-- C3, the claim as stated fails: after the sign-up of "asha@x.io", a job posting and
an application for it whose email is the number `42` (a reachable store), the application
and its job exist and no user has the application's email, yet the invite answers 500
and leaves the store as it was, `inviteSent` still `false`. -/
theorem invite_no_matching_user_counterexample :
    Reachable sampleBuiltins numberApplicationStore ∧
    numberApplicationStore.applications.find? (fun app => decide (some app.id = some 5)) =
      some numberApplication ∧
    (∃ j ∈ numberApplicationStore.jobs, some j.id = numberApplication.jobId) ∧
    (∀ u ∈ numberApplicationStore.users, u.email ≠ numberApplication.email) ∧
    invite sampleBuiltins numberApplicationStore (some 5) (sampleStamp 0) "t2" =
      (.reply { status := 500, success := false,
                message :=
                  "Error sending invitation: application.email.toLowerCase is not a function" },
        numberApplicationStore) ∧
    numberApplication.inviteSent = false := by
  refine ⟨⟨[.register 1 seekerReq,
            .postJob 10 "t0" sampleStamp backendReq,
            .submit 5 "t0" { ashaForm with email := some (.number 42) }], by decide⟩,
    by decide, ⟨backendJob, by decide, by decide⟩, by decide, by decide, rfl⟩

/-- C4.  The invite answers 404 and leaves the whole store (users, jobs, applications,
notifications) as it was, both when no application has the given id and when the
application found has a `jobId` that is the id of no job.  Submit accepts a form whatever
job its `jobId` names, storing the application with `inviteSent = false`; when that job
does not exist, an invite addressed to the new application (no older application carries
its id) answers 404 and changes nothing. -/
theorem invite_notFound (B : Builtins) (s : Store) (applicationId : Option Int) (st : Stamp)
    (d : String) :
    ((∀ x ∈ s.applications, some x.id ≠ applicationId) →
      invite B s applicationId st d =
        (.reply { status := 404, success := false, message := "Application not found" }, s)) ∧
    (∀ (pre post : List Application) (a : Application),
      s.applications = pre ++ a :: post → some a.id = applicationId →
      (∀ x ∈ pre, some x.id ≠ applicationId) →
      (∀ j ∈ s.jobs, some j.id ≠ a.jobId) →
      invite B s applicationId st d =
        (.reply { status := 404, success := false, message := "Job not found" }, s)) ∧
    (∀ (now : Int) (appliedDate : String) (req : ApplicationReq),
      req.jobId.truthy = true → truthy req.name = true → truthyJs req.email = true →
      truthy req.phone = true → truthy req.location = true →
      truthy req.qualification = true →
      (∀ j ∈ s.jobs, some j.id ≠ req.jobId.parsed) →
      (∀ x ∈ s.applications, x.id ≠ now) →
      ∃ a : Application,
        submitApplication s now appliedDate req =
          (.reply { status := 200, success := true,
                    message := "Application submitted successfully!", application := some a },
            { s with applications := s.applications ++ [a] }) ∧
        a.id = now ∧ a.jobId = req.jobId.parsed ∧ a.inviteSent = false ∧
        invite B (submitApplication s now appliedDate req).2 (some now) st d =
          (.reply { status := 404, success := false, message := "Job not found" },
            (submitApplication s now appliedDate req).2)) := by
  have hjobcase : ∀ (t : Store) (aid : Option Int) (pre post : List Application)
      (a : Application), t.applications = pre ++ a :: post → some a.id = aid →
      (∀ x ∈ pre, some x.id ≠ aid) → (∀ j ∈ t.jobs, some j.id ≠ a.jobId) →
      invite B t aid st d =
        (.reply { status := 404, success := false, message := "Job not found" }, t) := by
    intro t aid pre post a hsplit hid hfirst hnojob
    have hfindA : t.applications.find? (fun app => decide (some app.id = aid)) = some a := by
      rw [hsplit]
      exact find?_of_split (by simpa using hid) (fun x hx => by simpa using hfirst x hx)
    have hfindJ : t.jobs.find? (fun j => decide (some j.id = a.jobId)) = none := by
      rw [List.find?_eq_none]
      intro j hj
      simpa using hnojob j hj
    simp only [invite, hfindA, hfindJ]
  refine ⟨?_, hjobcase s applicationId, ?_⟩
  · intro hnone
    have hfindA : s.applications.find? (fun app => decide (some app.id = applicationId)) =
        none := by
      rw [List.find?_eq_none]
      intro x hx
      simpa using hnone x hx
    simp only [invite, hfindA]
  · intro now appliedDate req h1 h2 h3 h4 h5 h6 hnojob hfresh
    have hsub : submitApplication s now appliedDate req =
        (.reply { status := 200, success := true,
                  message := "Application submitted successfully!",
                  application := some
                    { id := now,
                      jobId := req.jobId.parsed,
                      name := req.name.getD "",
                      email := persist (req.email.getD .null),
                      phone := req.phone.getD "",
                      location := req.location.getD "",
                      qualification := req.qualification.getD "",
                      resumeFileName := orDefault req.resumeFileName "Not provided",
                      interviewPreference := orDefault req.interviewPreference "Not specified",
                      message := orDefault req.message "",
                      inviteSent := false,
                      inviteSentDate := none,
                      appliedDate := appliedDate } },
          { s with applications := s.applications ++
              [{ id := now,
                 jobId := req.jobId.parsed,
                 name := req.name.getD "",
                 email := persist (req.email.getD .null),
                 phone := req.phone.getD "",
                 location := req.location.getD "",
                 qualification := req.qualification.getD "",
                 resumeFileName := orDefault req.resumeFileName "Not provided",
                 interviewPreference := orDefault req.interviewPreference "Not specified",
                 message := orDefault req.message "",
                 inviteSent := false,
                 inviteSentDate := none,
                 appliedDate := appliedDate }] }) := by
      simp [submitApplication, h1, h2, h3, h4, h5, h6]
    refine ⟨_, hsub, rfl, rfl, rfl, ?_⟩
    rw [hsub]
    refine hjobcase _ (some now) s.applications [] _ rfl rfl ?_ ?_
    · intro x hx
      simpa using hfresh x hx
    · intro j hj
      exact hnojob j hj

/-- Instance of `invite_notFound`: an unknown application id, an application whose job
was deleted, and a form for the non-existent job `77` followed by an invite. -/
theorem invite_notFound_witness :
    invite sampleBuiltins inviteStore (some 6) (sampleStamp 0) "t2" =
      (.reply { status := 404, success := false, message := "Application not found" },
        inviteStore) ∧
    invite sampleBuiltins { inviteStore with jobs := [] } (some 5) (sampleStamp 0) "t2" =
      (.reply { status := 404, success := false, message := "Job not found" },
        { inviteStore with jobs := [] }) ∧
    invite sampleBuiltins (submitApplication inviteStore 8 "t1" orphanReq).2
        (some 8) (sampleStamp 0) "t2" =
      (.reply { status := 404, success := false, message := "Job not found" },
        (submitApplication inviteStore 8 "t1" orphanReq).2) := by
  refine ⟨?_, ?_, ?_⟩
  · exact (invite_notFound sampleBuiltins inviteStore (some 6) (sampleStamp 0) "t2").1
      (by decide)
  · exact (invite_notFound sampleBuiltins { inviteStore with jobs := [] } (some 5)
      (sampleStamp 0) "t2").2.1 [] [] ashaApplication rfl rfl (by simp) (by simp)
  · obtain ⟨a, _, _, _, _, h⟩ :=
      (invite_notFound sampleBuiltins inviteStore (some 8) (sampleStamp 0) "t2").2.2 8 "t1"
        orphanReq (by decide) (by decide) (by decide) (by decide) (by decide) (by decide)
        (by decide) (by decide)
    exact h

/-! ## C5: the `type` of a created notification -/

/-- C5 (as amended).  A notification created by posting a job whose request names a
job type has that job type, the type of the new job, as its `type`; a notification
created by the invite workflow has `type = "Interview Invitation"`.  The first holds for
the one notification per job seeker that a valid posting creates, the second for the
notification an invite creates when it reports `notificationCreated`. -/
theorem notification_type (B : Builtins) (s : Store) :
    (∀ (now : Int) (postedDate : String) (stamp : Nat → Stamp) (req : JobReq),
      truthy req.title = true → truthy req.company = true → truthy req.location = true →
      truthy req.type = true →
      ∃ (newJob : Job) (news : List Notification),
        (postJob s now postedDate stamp req).1 =
          .reply { status := 200, success := true, message := "Job added successfully!",
                   job := some newJob } ∧
        (postJob s now postedDate stamp req).2.jobs = s.jobs ++ [newJob] ∧
        some newJob.type = req.type ∧
        (postJob s now postedDate stamp req).2.notifications = s.notifications ++ news ∧
        news.length = (s.users.filter (fun u => decide (u.role = "jobseeker"))).length ∧
        ∀ n ∈ news, n.type = some newJob.type) ∧
    (∀ (applicationId : Option Int) (st : Stamp) (d : String),
      ∃ news : List Notification,
        (invite B s applicationId st d).2.notifications = s.notifications ++ news ∧
        news.length ≤ 1 ∧
        ((∃ r, (invite B s applicationId st d).1 = .reply r ∧
            r.notificationCreated = some true) → news.length = 1) ∧
        ∀ n ∈ news, n.type = some "Interview Invitation") := by
  constructor
  · intro now postedDate stamp req h1 h2 h3 h4
    obtain ⟨news, hrun, hall⟩ :=
      notifyJobseekers_append now (req.title.getD "") (req.company.getD "")
        (req.location.getD "") req.type stamp s.users 0 s.notifications
    obtain ⟨t, ht⟩ : ∃ t, req.type = some t := by
      cases hreq : req.type with
      | none => rw [hreq] at h4; simp [truthy] at h4
      | some t => exact ⟨t, rfl⟩
    have htype : orDefault req.type "Full Time" = t := by
      rw [ht] at h4
      simp [orDefault, ht, h4]
    have hpost : postJob s now postedDate stamp req =
        (.reply { status := 200, success := true, message := "Job added successfully!",
                  job := some
                    { id := now, title := req.title.getD "", company := req.company.getD "",
                      location := req.location.getD "", type := t,
                      salary := orDefault req.salary "Not specified",
                      description := orDefault req.description "",
                      requirements := orDefault req.requirements "",
                      postedDate := postedDate } },
          { s with
            jobs := s.jobs ++
              [{ id := now, title := req.title.getD "", company := req.company.getD "",
                 location := req.location.getD "", type := t,
                 salary := orDefault req.salary "Not specified",
                 description := orDefault req.description "",
                 requirements := orDefault req.requirements "",
                 postedDate := postedDate }],
            notifications := s.notifications ++ news }) := by
      simp [postJob, h1, h2, h3, hrun, htype]
    refine ⟨_, news, by rw [hpost], by rw [hpost], ht.symm, by rw [hpost],
      hall.length_eq.symm, ?_⟩
    intro n hn
    obtain ⟨u, _, st, rfl⟩ := forall₂_mem_right hall n hn
    simp only [jobNotification, ht]
  · intro applicationId st d
    cases hA : s.applications.find? (fun app => decide (some app.id = applicationId)) with
    | none => exact ⟨[], by simp [invite, hA]⟩
    | some a =>
      cases hJ : s.jobs.find? (fun j => decide (some j.id = a.jobId)) with
      | none => exact ⟨[], by simp [invite, hA, hJ]⟩
      | some j =>
        cases hU : findUserByEmail B a.email s.users with
        | error message => exact ⟨[], by simp [invite, hA, hJ, hU]⟩
        | ok found =>
          cases found with
          | none => exact ⟨[], by simp [invite, hA, hJ, hU]⟩
          | some u =>
            exact ⟨[inviteNotification st u j a],
              by simp [invite, hA, hJ, hU, inviteNotification]⟩

/-- Instance of `notification_type`: a "Part Time" posting seen by one job seeker. -/
theorem notification_type_witness :
    ∃ (newJob : Job) (news : List Notification),
      (postJob sameTickUsers 2 "t0" sampleStamp partTimeReq).1 =
        .reply { status := 200, success := true, message := "Job added successfully!",
                 job := some newJob } ∧
      (postJob sameTickUsers 2 "t0" sampleStamp partTimeReq).2.jobs =
        sameTickUsers.jobs ++ [newJob] ∧
      some newJob.type = partTimeReq.type ∧
      (postJob sameTickUsers 2 "t0" sampleStamp partTimeReq).2.notifications =
        sameTickUsers.notifications ++ news ∧
      news.length =
        (sameTickUsers.users.filter (fun u => decide (u.role = "jobseeker"))).length ∧
      ∀ n ∈ news, n.type = some newJob.type :=
  (notification_type sampleBuiltins sameTickUsers).1 2 "t0" sampleStamp partTimeReq
    (by decide) (by decide) (by decide) (by decide)

/-- C5, the claim as stated fails: the notification of a "Part Time" posting has
`type = "Part Time"`, that of a posting that omits the job type has no `type`, and the
notification of an invite has `type = "Interview Invitation"`; none is `"job_posted"` or
`"interview_invitation"`. -/
theorem notification_type_counterexample :
    (postJob sameTickUsers 2 "t0" sampleStamp backendReq).2.notifications.map
        (fun n => n.type) = [none] ∧
    (postJob sameTickUsers 2 "t0" sampleStamp partTimeReq).2.notifications.map
        (fun n => n.type) = [some "Part Time"] ∧
    (invite sampleBuiltins inviteStore (some 5) (sampleStamp 0) "t2").2.notifications.map
        (fun n => n.type) = [some "Interview Invitation"] ∧
    (none : Option String) ≠ some "job_posted" ∧
    some "Part Time" ≠ some "job_posted" ∧
    some "Interview Invitation" ≠ some "interview_invitation" := by
  decide

/-! ## C6: marking one notification read -/

/-- C6.  If some notification has the given id, MarkRead succeeds and the collection it
leaves has the same length and the same records in the same order, except that the first
notification with that id has `read = true`; a second MarkRead with the same id succeeds
again and leaves that collection as it is.  If no notification has the id, MarkRead
answers 404 and the store is unchanged. -/
theorem markRead_idempotent (s : Store) (notificationId : Option ℚ) :
    ((∃ n ∈ s.notifications, some n.id = notificationId) →
      ∃ (pre post : List Notification) (n : Notification),
        s.notifications = pre ++ n :: post ∧ some n.id = notificationId ∧
        (∀ x ∈ pre, some x.id ≠ notificationId) ∧
        markRead s notificationId =
          (.reply { status := 200, success := true, message := "Notification marked as read" },
            { s with notifications := pre ++ { n with read := true } :: post }) ∧
        (markRead s notificationId).2.notifications.length = s.notifications.length ∧
        markRead (markRead s notificationId).2 notificationId =
          (.reply { status := 200, success := true, message := "Notification marked as read" },
            (markRead s notificationId).2)) ∧
    ((∀ n ∈ s.notifications, some n.id ≠ notificationId) →
      markRead s notificationId =
        (.reply { status := 404, success := false, message := "Notification not found" },
          s)) := by
  constructor
  · rintro ⟨n0, hn0, hid0⟩
    obtain ⟨n, hfind⟩ :=
      find?_isSome_of_mem (p := fun n : Notification => decide (some n.id = notificationId))
        hn0 (by simpa using hid0)
    obtain ⟨hn, pre, post, hsplit, hpre⟩ := split_of_find? hfind
    have hupd : updateFirst (fun n => decide (some n.id = notificationId)) setRead
        s.notifications = pre ++ setRead n :: post := by
      rw [hsplit]
      exact updateFirst_of_split _ hn hpre
    have hrun : markRead s notificationId =
        (.reply { status := 200, success := true, message := "Notification marked as read" },
          { s with notifications := pre ++ setRead n :: post }) := by
      simp only [markRead, hfind, hupd]
    have hn2 : (fun n : Notification => decide (some n.id = notificationId)) (setRead n) =
        true := hn
    have hfind2 : (pre ++ setRead n :: post).find?
        (fun n => decide (some n.id = notificationId)) = some (setRead n) :=
      find?_of_split hn2 hpre
    have hupd2 : updateFirst (fun n => decide (some n.id = notificationId)) setRead
        (pre ++ setRead n :: post) = pre ++ setRead (setRead n) :: post :=
      updateFirst_of_split _ hn2 hpre
    refine ⟨pre, post, n, hsplit, by simpa using hn, fun x hx => by simpa using hpre x hx,
      hrun, ?_, ?_⟩
    · rw [hrun, hsplit]
      simp
    · rw [hrun]
      simp only [markRead, hfind2, hupd2]
      rfl
  · intro hnone
    have hfind : s.notifications.find? (fun n => decide (some n.id = notificationId)) =
        none := by
      rw [List.find?_eq_none]
      intro x hx
      simpa using hnone x hx
    simp only [markRead, hfind]

/-- Instance of `markRead_idempotent`: two notifications carry the id `7/2`; the first is
the one marked, and a second call changes nothing more. -/
theorem markRead_idempotent_witness :
    (∃ (pre post : List Notification) (n : Notification),
      busyStore.notifications = pre ++ n :: post ∧ some n.id = some sevenHalves ∧
      (∀ x ∈ pre, some x.id ≠ some sevenHalves) ∧
      markRead busyStore (some sevenHalves) =
        (.reply { status := 200, success := true, message := "Notification marked as read" },
          { busyStore with notifications := pre ++ { n with read := true } :: post }) ∧
      (markRead busyStore (some sevenHalves)).2.notifications.length =
        busyStore.notifications.length ∧
      markRead (markRead busyStore (some sevenHalves)).2 (some sevenHalves) =
        (.reply { status := 200, success := true, message := "Notification marked as read" },
          (markRead busyStore (some sevenHalves)).2)) ∧
    markRead busyStore (some 4) =
      (.reply { status := 404, success := false, message := "Notification not found" },
        busyStore) :=
  ⟨(markRead_idempotent busyStore (some sevenHalves)).1
      ⟨ashaNotification, by decide, by decide⟩,
    (markRead_idempotent busyStore (some 4)).2 (by decide)⟩

/-! ## C7: deleting a job -/

/-- C7.  Delete answers 404 exactly when no job has the given id, and then changes
nothing.  Otherwise it succeeds and the job list becomes the previous list without the
jobs of that id, the others staying as they were and in their order.  In both cases the
application, notification and user collections are what they were, so applications and
notifications whose `jobId` is the deleted id remain. -/
theorem deleteJob_no_cascade (s : Store) (jobId : Option Int) :
    ((deleteJob s jobId).1 =
        .reply { status := 404, success := false, message := "Job not found" } ↔
      ∀ j ∈ s.jobs, some j.id ≠ jobId) ∧
    ((∀ j ∈ s.jobs, some j.id ≠ jobId) → (deleteJob s jobId).2 = s) ∧
    ((∃ j ∈ s.jobs, some j.id = jobId) →
      (deleteJob s jobId).1 =
        .reply { status := 200, success := true, message := "Job deleted successfully" } ∧
      (deleteJob s jobId).2.jobs = s.jobs.filter (fun j => decide (some j.id ≠ jobId)) ∧
      (∀ j, j ∈ (deleteJob s jobId).2.jobs ↔ j ∈ s.jobs ∧ some j.id ≠ jobId) ∧
      List.Sublist (deleteJob s jobId).2.jobs s.jobs) ∧
    (deleteJob s jobId).2.applications = s.applications ∧
    (deleteJob s jobId).2.notifications = s.notifications ∧
    (deleteJob s jobId).2.users = s.users ∧
    (∀ a ∈ s.applications, a.jobId = jobId → a ∈ (deleteJob s jobId).2.applications) ∧
    (∀ n ∈ s.notifications, some n.jobId = jobId →
      n ∈ (deleteJob s jobId).2.notifications) := by
  have hlen : s.jobs.length = (s.jobs.filter (fun j => decide (some j.id ≠ jobId))).length ↔
      ∀ j ∈ s.jobs, some j.id ≠ jobId := by
    rw [eq_comm, List.filter_length_eq_length]
    simp
  by_cases h : ∀ j ∈ s.jobs, some j.id ≠ jobId
  · have hrun : deleteJob s jobId =
        (.reply { status := 404, success := false, message := "Job not found" }, s) := by
      simp only [deleteJob, hlen.2 h, if_true]
    refine ⟨⟨fun _ => h, fun _ => by rw [hrun]⟩, fun _ => by rw [hrun], ?_, by rw [hrun],
      by rw [hrun],
      by rw [hrun], fun a ha _ => by rw [hrun]; exact ha, fun n hn _ => by rw [hrun]; exact hn⟩
    rintro ⟨j, hj, hid⟩
    exact absurd hid (h j hj)
  · have hne : ¬ s.jobs.length =
        (s.jobs.filter (fun j => decide (some j.id ≠ jobId))).length := fun hl => h (hlen.1 hl)
    have hrun : deleteJob s jobId =
        (.reply { status := 200, success := true, message := "Job deleted successfully" },
          { s with jobs := s.jobs.filter (fun j => decide (some j.id ≠ jobId)) }) := by
      simp only [deleteJob, hne, if_false]
    refine ⟨⟨fun h1 => ?_, fun h2 => absurd h2 h⟩, fun h2 => absurd h2 h, fun _ => ?_,
      by rw [hrun], by rw [hrun],
      by rw [hrun], fun a ha _ => by rw [hrun]; exact ha, fun n hn _ => by rw [hrun]; exact hn⟩
    · rw [hrun] at h1
      simp at h1
    refine ⟨by rw [hrun], by rw [hrun], ?_, ?_⟩
    · intro j
      rw [hrun]
      simp [List.mem_filter]
    · rw [hrun]
      exact List.filter_sublist _

/-- Instance of `deleteJob_no_cascade`: job `10` is deleted while an application and two
notifications refer to it; they stay, and deleting job `11` is a 404. -/
theorem deleteJob_no_cascade_witness :
    ((deleteJob busyStore (some 10)).1 =
        .reply { status := 200, success := true, message := "Job deleted successfully" } ∧
      (deleteJob busyStore (some 10)).2.jobs =
        busyStore.jobs.filter (fun j => decide (some j.id ≠ some 10)) ∧
      (∀ j, j ∈ (deleteJob busyStore (some 10)).2.jobs ↔
        j ∈ busyStore.jobs ∧ some j.id ≠ some 10) ∧
      List.Sublist (deleteJob busyStore (some 10)).2.jobs busyStore.jobs) ∧
    ashaApplication ∈ (deleteJob busyStore (some 10)).2.applications ∧
    ashaNotification ∈ (deleteJob busyStore (some 10)).2.notifications ∧
    (deleteJob busyStore (some 11)).2 = busyStore :=
  ⟨(deleteJob_no_cascade busyStore (some 10)).2.2.1 ⟨backendJob, by decide, by decide⟩,
    (deleteJob_no_cascade busyStore (some 10)).2.2.2.2.2.2.1 ashaApplication (by decide)
      (by decide),
    (deleteJob_no_cascade busyStore (some 10)).2.2.2.2.2.2.2 ashaNotification (by decide)
      (by decide),
    (deleteJob_no_cascade busyStore (some 11)).2.1 (by decide)⟩

/-! ## C8: the flags never go back -/

/-- C8.  For every request and every store it is served in (so also every reachable
one): every application is still there afterwards, at its position, unchanged outside
its invitation fields and with `inviteSent` still `true` if it was; and either the same
holds of every notification and its `read` flag, or the request is a ClearForUser and
the notifications left are exactly those of the other users, as they were.  Along every
sequence of requests no `inviteSent` goes from `true` to `false`, and along every
sequence without ClearForUser no `read` does. -/
theorem flags_monotonic (B : Builtins) :
    (∀ (s : Store) (op : Op),
      KeptList InviteKept s.applications (handle B s op).2.applications ∧
      (KeptList ReadKept s.notifications (handle B s op).2.notifications ∨
        ∃ u, op = .clear u ∧
          (handle B s op).2.notifications =
            s.notifications.filter (fun n => decide (some n.userId ≠ u)))) ∧
    (∀ (s : Store) (ops : List Op),
      KeptList InviteKept s.applications (run B s ops).applications) ∧
    (∀ (s : Store) (ops : List Op), (∀ op ∈ ops, op.isClear = false) →
      KeptList ReadKept s.notifications (run B s ops).notifications) := by
  refine ⟨fun s op => ⟨handle_applications B s op, handle_notifications B s op⟩, ?_, ?_⟩
  · intro s ops
    induction ops generalizing s with
    | nil => exact KeptList.refl inviteKept_refl _
    | cons op ops ih =>
      exact KeptList.trans inviteKept_trans (handle_applications B s op) (ih _)
  · intro s ops
    induction ops generalizing s with
    | nil => intro _; exact KeptList.refl readKept_refl _
    | cons op ops ih =>
      intro hclear
      have hstep : KeptList ReadKept s.notifications (handle B s op).2.notifications := by
        rcases handle_notifications B s op with h | ⟨u, hu, _⟩
        · exact h
        · have := hclear op (List.mem_cons_self _ _)
          rw [hu] at this
          simp [Op.isClear] at this
      exact KeptList.trans readKept_trans hstep
        (ih _ (fun o ho => hclear o (List.mem_cons_of_mem _ ho)))

/-- Instance of `flags_monotonic`: a sequence of requests without ClearForUser, served
from a store with an invited application and a read notification. -/
theorem flags_monotonic_witness :
    KeptList InviteKept invitedStore.applications
      (run sampleBuiltins invitedStore busyDay).applications ∧
    KeptList ReadKept invitedStore.notifications
      (run sampleBuiltins invitedStore busyDay).notifications :=
  ⟨(flags_monotonic sampleBuiltins).2.1 invitedStore busyDay,
    (flags_monotonic sampleBuiltins).2.2 invitedStore busyDay (by decide)⟩

/-! ## C9: one email, one user -/

/-- C9 (as amended).  A registration whose four fields are present (non-empty) and
whose email is a string answers "Email already registered" exactly when some user of the
directory has that very email (compared as strings, case included), and then changes
nothing; otherwise it succeeds and appends exactly one user, with that email.  Hence in
every store reachable from the empty one, two users of the directory have the same email
only if that email is an array, an object or `null`. -/
theorem register_email_unique (B : Builtins) :
    (∀ (s : Store) (now : Int) (req : UserReq) (e : String),
      truthy req.name = true → req.email = some (.string e) → e ≠ "" →
      truthy req.password = true → truthy req.role = true →
      ((registerUser s now req).1 =
          .reply { status := 400, success := false, message := "Email already registered" } ↔
        ∃ u ∈ s.users, u.email = .string e) ∧
      ((∃ u ∈ s.users, u.email = .string e) → (registerUser s now req).2 = s) ∧
      ((∀ u ∈ s.users, u.email ≠ .string e) →
        ∃ nu : User,
          registerUser s now req =
            (.reply { status := 200, success := true, message := "User created!" },
              { s with users := s.users ++ [nu] }) ∧
          nu.email = .string e ∧ nu.id = now)) ∧
    (∀ s : Store, Reachable B s →
      List.Pairwise
        (fun u v => u.email = v.email → u.email = .null ∨ ∃ json, u.email = .object json)
        s.users) := by
  constructor
  · intro s now req e h1 he he0 h3 h4
    have h2 : truthyJs req.email = true := by simp [he, truthyJs, he0]
    by_cases hdup : ∃ u ∈ s.users, u.email = .string e
    · have hany : s.users.any (fun u => strictEq u.email (req.email.getD .null)) = true := by
        simpa [he, strictEq_string] using hdup
      have hrun : registerUser s now req =
          (.reply { status := 400, success := false, message := "Email already registered" },
            s) := by
        simp only [registerUser, h1, h2, h3, h4, hany]
        rfl
      refine ⟨⟨fun _ => hdup, fun _ => by rw [hrun]⟩, fun _ => by rw [hrun], ?_⟩
      intro hnone
      obtain ⟨u, hu, hue⟩ := hdup
      exact absurd hue (hnone u hu)
    · have hany : s.users.any (fun u => strictEq u.email (req.email.getD .null)) = false := by
        rw [List.any_eq_false]
        intro u hu hs
        simp only [he, Option.getD_some, strictEq_string] at hs
        exact hdup ⟨u, hu, hs⟩
      have hrun : registerUser s now req =
          (.reply { status := 200, success := true, message := "User created!" },
            { s with users := s.users ++
                [{ id := now, name := req.name.getD "",
                   email := persist (req.email.getD .null),
                   password := req.password.getD "", role := req.role.getD "" }] }) := by
        simp only [registerUser, h1, h2, h3, h4, hany]
        rfl
      refine ⟨⟨fun h => ?_, fun h => absurd h hdup⟩, fun h => absurd h hdup, fun _ => ?_⟩
      · rw [hrun] at h
        simp at h
      · exact ⟨_, hrun, by simp [he, persist], rfl⟩
  · rintro s ⟨ops, rfl⟩
    induction ops using List.reverseRecOn with
    | nil => simp [run, Store.empty]
    | append_singleton ops op ih =>
      rw [run_append]
      rcases handle_users B (run B Store.empty ops) op with h | ⟨now, req, rfl⟩
      · rw [h]
        exact ih
      · rcases registerUser_users (run B Store.empty ops) now req with
          h | ⟨v, nu, hnew, hnu, h⟩
        · simp only [handle]
          rw [h]
          exact ih
        · simp only [handle]
          rw [h, List.pairwise_append]
          refine ⟨ih, List.pairwise_singleton _ _, ?_⟩
          intro u hu w hw heq
          rw [List.mem_singleton] at hw
          rw [hw, hnu] at heq
          have hs := hnew u hu
          cases v with
          | null => exact Or.inl (by simpa [persist] using heq)
          | object json => exact Or.inr ⟨json, by simpa [persist] using heq⟩
          | infinite negative => exact Or.inl (by simpa [persist] using heq)
          | bool b =>
            simp only [persist] at heq
            rw [heq] at hs
            simp [strictEq] at hs
          | number q =>
            simp only [persist] at heq
            rw [heq] at hs
            simp [strictEq] at hs
          | string t =>
            simp only [persist] at heq
            rw [heq] at hs
            simp [strictEq] at hs

/-- Instance of `register_email_unique`: signing up again as "asha@x.io" changes
nothing, the first sign-up with that email appends one user, and in the reachable store
`sameTickUsers` the two users have different emails. -/
theorem register_email_unique_witness :
    (registerUser sameTickUsers 3 seekerReq).2 = sameTickUsers ∧
    (∃ nu : User,
      registerUser Store.empty 3 seekerReq =
        (.reply { status := 200, success := true, message := "User created!" },
          { Store.empty with users := Store.empty.users ++ [nu] }) ∧
      nu.email = .string "asha@x.io" ∧ nu.id = 3) ∧
    List.Pairwise
      (fun u v => u.email = v.email → u.email = .null ∨ ∃ json, u.email = .object json)
      sameTickUsers.users :=
  ⟨((register_email_unique sampleBuiltins).1 sameTickUsers 3 seekerReq "asha@x.io"
      (by decide) rfl (by decide) (by decide) (by decide)).2.1
      ⟨ashaUser, by decide, by decide⟩,
    ((register_email_unique sampleBuiltins).1 Store.empty 3 seekerReq "asha@x.io"
      (by decide) rfl (by decide) (by decide) (by decide)).2.2 (by simp [Store.empty]),
    (register_email_unique sampleBuiltins).2 sameTickUsers
      ⟨[.register 1 seekerReq, .register 1 employerReq], by decide⟩⟩

/-- C9, the claim as stated fails: a sign-up whose email is the array `[1]` succeeds,
and the same sign-up succeeds again although a user with exactly that email exists; the
store reached holds two users with the same email. -/
theorem register_email_unique_counterexample :
    truthy arrayReq.name = true ∧ truthyJs arrayReq.email = true ∧
    truthy arrayReq.password = true ∧ truthy arrayReq.role = true ∧
    (∃ u ∈ (registerUser Store.empty 1 arrayReq).2.users, some u.email = arrayReq.email) ∧
    registerUser (registerUser Store.empty 1 arrayReq).2 2 arrayReq =
      (.reply { status := 200, success := true, message := "User created!" }, twinStore) ∧
    Reachable sampleBuiltins twinStore ∧
    twinStore.users.map (fun u => u.email) = [.object "[1]", .object "[1]"] ∧
    ¬ (twinStore.users.map (fun u => u.email)).Nodup := by
  refine ⟨by decide, by decide, by decide, by decide, ?_, by decide,
    ⟨[.register 1 arrayReq, .register 2 arrayReq], by decide⟩, by decide, by decide⟩
  exact ⟨{ id := 1, name := "Ann", email := .object "[1]", password := "pw",
           role := "jobseeker" }, by decide, by decide⟩

/-! ## C10: marking all notifications of a user read -/

/-- C10.  MarkAllRead always succeeds; the collection it leaves has the same length and
order, each notification of the given user now has `read = true` and is otherwise
unchanged, each notification of another user is unchanged.  Afterwards the unread count
of that user is `0` and the unread count of every other user is what it was. -/
theorem markAllRead_spec (s : Store) (userId : Option Int) :
    (markAllRead s userId).1 =
      .reply { status := 200, success := true,
               message := "All notifications marked as read" } ∧
    (markAllRead s userId).2.notifications.length = s.notifications.length ∧
    List.Forall₂
      (fun n m => (some n.userId = userId → m = { n with read := true }) ∧
        (some n.userId ≠ userId → m = n))
      s.notifications (markAllRead s userId).2.notifications ∧
    unreadCount (markAllRead s userId).2.notifications userId = 0 ∧
    (∀ v : Option Int, v ≠ userId →
      unreadCount (markAllRead s userId).2.notifications v =
        unreadCount s.notifications v) ∧
    (markAllRead s userId).2.users = s.users ∧
    (markAllRead s userId).2.jobs = s.jobs ∧
    (markAllRead s userId).2.applications = s.applications := by
  refine ⟨rfl, by simp [markAllRead], ?_, ?_, ?_, rfl, rfl, rfl⟩
  · simp only [markAllRead]
    generalize s.notifications = l
    induction l with
    | nil => exact List.Forall₂.nil
    | cons n ns ih =>
      rw [List.map_cons]
      refine List.Forall₂.cons ?_ ih
      by_cases h : some n.userId = userId
      · simp [h, setRead]
      · simp [h]
  · have hp : ((fun n : Notification => decide (some n.userId = userId) && !n.read) ∘
        fun n => if some n.userId = userId then setRead n else n) = fun _ => false := by
      funext n
      by_cases h : some n.userId = userId <;> simp [h, setRead]
    simp [markAllRead, unreadCount, List.filter_map, hp]
  · intro v hv
    have hp : ((fun n : Notification => decide (some n.userId = v) && !n.read) ∘
        fun n => if some n.userId = userId then setRead n else n) =
        fun n => decide (some n.userId = v) && !n.read := by
      funext n
      by_cases h : some n.userId = userId
      · have hv2 : ¬ some n.userId = v := fun h2 => hv (h2.symm.trans h)
        simp [h, hv2, setRead]
        exact fun h3 => absurd h3.symm hv
      · simp [h]
    simp only [markAllRead, unreadCount, List.filter_map, hp, List.length_map]

/-- Instance of `markAllRead_spec`: user `1` has one unread notification and user `2`
another; after MarkAllRead for user `1` their counts are `0` and `1`. -/
theorem markAllRead_spec_witness :
    unreadCount busyStore.notifications (some 1) = 1 ∧
    unreadCount (markAllRead busyStore (some 1)).2.notifications (some 1) = 0 ∧
    unreadCount (markAllRead busyStore (some 1)).2.notifications (some 2) =
      unreadCount busyStore.notifications (some 2) ∧
    unreadCount busyStore.notifications (some 2) = 1 :=
  ⟨by decide, (markAllRead_spec busyStore (some 1)).2.2.2.1,
    (markAllRead_spec busyStore (some 1)).2.2.2.2.1 (some 2) (by decide), by decide⟩

/-! ## C11: clearing the notifications of a user -/

/-- C11.  ClearForUser always succeeds, and the collection it leaves is exactly the
notifications of the other users, each as it was and in their original relative order.
Afterwards GetForUser of that user is empty, and GetForUser of every other user returns
the list it returned before; users, jobs and applications are untouched. -/
theorem clearNotifications_spec (s : Store) (userId : Option Int) :
    (clearNotifications s userId).1 =
      .reply { status := 200, success := true, message := "Notifications cleared" } ∧
    (clearNotifications s userId).2.notifications =
      s.notifications.filter (fun n => decide (some n.userId ≠ userId)) ∧
    (∀ n, n ∈ (clearNotifications s userId).2.notifications ↔
      n ∈ s.notifications ∧ some n.userId ≠ userId) ∧
    List.Sublist (clearNotifications s userId).2.notifications s.notifications ∧
    (getNotifications (clearNotifications s userId).2 userId).1 = .notifications [] ∧
    (∀ v : Option Int, v ≠ userId →
      (getNotifications (clearNotifications s userId).2 v).1 = (getNotifications s v).1) ∧
    (clearNotifications s userId).2.users = s.users ∧
    (clearNotifications s userId).2.jobs = s.jobs ∧
    (clearNotifications s userId).2.applications = s.applications := by
  refine ⟨rfl, rfl, ?_, List.filter_sublist _, ?_, ?_, rfl, rfl, rfl⟩
  · intro n
    simp [clearNotifications, List.mem_filter]
  · simp only [getNotifications, clearNotifications, List.filter_filter]
    congr 1
    rw [List.filter_eq_nil_iff]
    intro n _
    by_cases h : some n.userId = userId <;> simp [h]
  · intro v hv
    simp only [getNotifications, clearNotifications, List.filter_filter]
    congr 1
    refine List.filter_congr ?_
    intro n _
    by_cases h : some n.userId = v
    · simp [h, hv]
    · simp [h]

/-- Instance of `clearNotifications_spec`: user `1` and user `2` each have one
notification; clearing for user `1` leaves user `1` with none and user `2` with theirs. -/
theorem clearNotifications_spec_witness :
    (getNotifications busyStore (some 1)).1 = .notifications [ashaNotification] ∧
    (getNotifications (clearNotifications busyStore (some 1)).2 (some 1)).1 =
      .notifications [] ∧
    (getNotifications (clearNotifications busyStore (some 1)).2 (some 2)).1 =
      (getNotifications busyStore (some 2)).1 ∧
    (getNotifications busyStore (some 2)).1 = .notifications [otherNotification] :=
  ⟨by decide, (clearNotifications_spec busyStore (some 1)).2.2.2.2.1,
    (clearNotifications_spec busyStore (some 1)).2.2.2.2.2.1 (some 2) (by decide),
    by decide⟩

end HustleHub
